import Mathlib

/-
Verification of the aristarchus book-catalogue backend
(src/aristarchus-backend/aristarchus.go) against its specification.

The Go data-access layer is shallowly embedded: the SQLite store is a record
of row lists, SQL statements become list operations (a SELECT with a WHERE
clause is a filter, QueryRow takes the first matching row, INSERT appends,
UPDATE maps, DELETE filters out), generated ids follow SQLite's
max-rowid-plus-one rule, and every mutating Go function becomes a Lean
function returning its result together with the post-call store.
Transactions are modelled by working on a copy of the store and returning
the pre-transaction store on the error (rollback) paths.
-/

namespace Aristarchus

/-! ## Name-list formatting and parsing (formatNameList / nameListFromString)

Strings are handled at the character-list level.  splitGo embeds Go's
strings.Split: repeatedly cut at the leftmost occurrence of the separator.
The recursion is driven by a fuel argument (one unit per character examined)
so that the definition is structural and computable by the kernel; fuel
s.length is always sufficient because every step consumes at least one
character of the remaining string.
-/

/-- Auxiliary scanner for splitGo.  The separator is c0 :: sep1 (kept split
apart so it is syntactically non-empty).  When the fuel runs out with input
left over the remaining input is returned unsplit; the lemmas below show
this case is unreachable when the fuel is at least the input length. -/
def splitGoAux (c0 : Char) (sep1 : List Char) : Nat → List Char → List (List Char)
  | _, [] => [[]]
  | 0, s => [s]
  | fuel + 1, c :: cs =>
    if (c0 :: sep1).isPrefixOf (c :: cs) then
      [] :: splitGoAux c0 sep1 fuel ((c :: cs).drop (c0 :: sep1).length)
    else
      match splitGoAux c0 sep1 fuel cs with
      | [] => [[c]]
      | p :: ps => (c :: p) :: ps

/-- Embedding of Go strings.Split(s, sep) over character lists.  For an
empty separator Go explodes the string into its characters. -/
def splitGo (sep s : List Char) : List (List Char) :=
  match sep with
  | [] => s.map (fun c => [c])
  | c0 :: sep1 => splitGoAux c0 sep1 s.length s

/-- Separator " and " used by the two-or-more-names forms. -/
def sepAnd : List Char := [' ', 'a', 'n', 'd', ' ']

/-- Separator ", " used between all but the last two names. -/
def sepComma : List Char := [',', ' ']

/-- Comma-joining loop of formatNameList: names[0] ++ ", " ++ ... ++ names[k].
This is the string built by the Go for-loop over names[0..len-2] followed by
the append of names[len-2]. -/
def joinComma : List (List Char) → List Char
  | [] => []
  | [n] => n
  | n :: ns => n ++ sepComma ++ joinComma ns

/-- Embedding of formatNameList (character-list level).  Go switches on the
number of names: 0 gives "", 1 gives the name, 2 gives "A and B", and the
default branch comma-joins all but the last name and appends " and " and the
last name (no Oxford comma). -/
def formatNameListCL (names : List (List Char)) : List Char :=
  match names with
  | [] => []
  | [a] => a
  | [a, b] => a ++ sepAnd ++ b
  | ns => joinComma ns.dropLast ++ sepAnd ++ ns.getLastD []

/-- Embedding of nameListFromString (character-list level): empty input gives
the empty list; otherwise split on " and "; a single segment is a single
name; otherwise split the first segment on ", " and append the second
segment (segments beyond the second are dropped, as in the Go code, which
only ever reads splitAnd[1]). -/
def nameListFromStringCL (nameString : List Char) : List (List Char) :=
  if nameString.length = 0 then []
  else
    let splitAnd := splitGo sepAnd nameString
    if splitAnd.length = 1 then splitAnd
    else splitGo sepComma (splitAnd.headD []) ++ [splitAnd.getD 1 []]

/-- Embedding of formatNameList at the String level. -/
def formatNameList (names : List String) : String :=
  String.mk (formatNameListCL (names.map String.data))

/-- Embedding of nameListFromString at the String level. -/
def nameListFromString (s : String) : List String :=
  (nameListFromStringCL s.data).map String.mk

/-- Decidable occurrence test: does sep occur as a contiguous substring of
s?  (Used to state the side conditions of the round-trip theorems.) -/
def occursIn (sep : List Char) : List Char → Bool
  | [] => sep.isEmpty
  | c :: cs => sep.isPrefixOf (c :: cs) || occursIn sep cs

/-! ## PurchasedDate and setDate

PurchasedDate mirrors the Go struct (year, month, day; zero meaning
"absent").  The three time.Parse reference layouts ("2006", "January 2006",
"2 January 2006") belong to Go's time package, an external collaborator, so
they enter the model as parser parameters: setDate only inspects the word
count of its input and delegates to the matching parser. -/

structure PurchasedDate where
  year : Nat
  month : Nat
  day : Nat
deriving Repr, DecidableEq

/-- Names of the Go time.Month values, as printed by fmt's %v verb. -/
def monthName (m : Nat) : String :=
  match m with
  | 1 => "January" | 2 => "February" | 3 => "March" | 4 => "April"
  | 5 => "May" | 6 => "June" | 7 => "July" | 8 => "August"
  | 9 => "September" | 10 => "October" | 11 => "November" | 12 => "December"
  | _ => "%!Month(" ++ toString m ++ ")"

/-- Embedding of PurchasedDate.String(): empty for a zero year, then
progressively "YYYY", "Month YYYY", "D Month YYYY". -/
def pdString (pd : PurchasedDate) : String :=
  if pd.year = 0 then ""
  else if pd.month = 0 then toString pd.year
  else if pd.day = 0 then monthName pd.month ++ " " ++ toString pd.year
  else toString pd.day ++ " " ++ monthName pd.month ++ " " ++ toString pd.year

/-- Result of a successful time.Parse call: the components the Go code reads
off the returned time.Time. -/
structure ParsedDate where
  year : Nat
  month : Nat
  day : Nat
deriving Repr, DecidableEq

/-- The three reference-layout parsers of Go's time package consumed by
setDate, left abstract as parameters of the model (none means time.Parse
returned an error). -/
structure DateParsers where
  parseYear : String → Option ParsedDate
  parseMonthYear : String → Option ParsedDate
  parseDayMonthYear : String → Option ParsedDate

/-- Error mirroring DateParsingError (function name, format label, input). -/
structure DateParsingFailure where
  funcName : String
  format : String
  dateString : String
deriving Repr, DecidableEq

/-- Embedding of (*PurchasedDate).setDate: split the input on single spaces
and switch on the number of words.  The Go switch has cases only for 0
(unreachable: strings.Split never returns an empty slice), 1, 2 and 3; four
or more words fall through the switch and return nil with the receiver
untouched. -/
def setDate (P : DateParsers) (pd : PurchasedDate) (s : String) :
    Except DateParsingFailure PurchasedDate :=
  let params := splitGo [' '] s.data
  match params.length with
  | 0 => .error { funcName := "setDate", format := "unknown", dateString := s }
  | 1 =>
    match P.parseYear s with
    | none => .error { funcName := "setDate", format := "year", dateString := s }
    | some t => .ok { pd with year := t.year }
  | 2 =>
    match P.parseMonthYear s with
    | none => .error { funcName := "setDate", format := "month year", dateString := s }
    | some t => .ok { pd with year := t.year, month := t.month }
  | 3 =>
    match P.parseDayMonthYear s with
    | none => .error { funcName := "setDate", format := "day month year", dateString := s }
    | some t => .ok { pd with year := t.year, month := t.month, day := t.day }
  | _ + 4 => .ok pd

/-! ## The relational store

One record of row lists, mirroring the SQLite schema of setup_books_db.sql.
List order is row order: a SELECT without ORDER BY yields rows in list
order, QueryRow reads the first matching row, INSERT appends, and a
generated id is one more than the largest id present (SQLite's rowid
rule for INTEGER PRIMARY KEY columns). -/

/-- A row of the books table.  Nullable columns (subtitle, edition,
series_id, purchased_date) are Options; title, year, publisher_id, isbn and
status are written by addBook as plain values. -/
structure BookRow where
  book_id : Nat
  title : String
  subtitle : Option String
  year : Int
  edition : Option Int
  publisher_id : Nat
  isbn : String
  series_id : Option Nat
  status : String
  purchased_date : Option String
deriving Repr, DecidableEq

/-- The whole store: people, publishers and series are (id, name) rows;
book_author and book_editor are (book_id, person_id) association rows with a
composite primary key. -/
structure DB where
  people : List (Nat × String)
  publishers : List (Nat × String)
  series : List (Nat × String)
  books : List BookRow
  book_author : List (Nat × Nat)
  book_editor : List (Nat × Nat)
deriving Repr, DecidableEq

/-- The in-memory Book value of the Go layer: author and editor are
formatted name-list strings, publisher and series are names, and the zero
values ("" / 0 / zero date) stand for "absent". -/
structure Book where
  id : Nat
  author : String
  editor : String
  title : String
  subtitle : String
  year : Int
  edition : Int
  publisher : String
  isbn : String
  series : String
  status : String
  purchased : PurchasedDate
deriving Repr, DecidableEq

/-- The error values of the layer.  Each Go error type is one constructor;
wrapW models fmt.Errorf wrapping with the %w verb (transparent to
errors.As), wrapV models wrapping with %v (the inner classification is
flattened away in Go; the payload is kept here only for readability and is
never matched on). -/
inductive DbErr where
  | validation (msg : String)
  | invalidBookId (callFunc : String) (id : Nat)
  | invalidPersonId (callFunc : String) (id : Nat)
  | invalidPublisherId (callFunc : String) (id : Nat)
  | invalidSeriesId (callFunc : String) (id : Nat)
  | personInUse (callFunc : String) (name : String) (id : Nat) (books : List Nat)
  | publisherInUse (callFunc : String) (name : String) (id : Nat) (books : List Nat)
  | seriesInUse (callFunc : String) (name : String) (id : Nat) (books : List Nat)
  | duplicateBook (id : Nat)
  | emptyTitle (id : Nat) (title : String)
  | consistency (msg : String)
  | sqlConstraint (msg : String)
  | wrapW (ctx : String) (inner : DbErr)
  | wrapV (ctx : String) (inner : DbErr)
  | flat (msg : String)
deriving Repr, DecidableEq

deriving instance DecidableEq for Except

/-- errors.As with target *PersonInUseError: matches the constructor through
any chain of %w wraps. -/
def isPersonInUseErr : DbErr → Bool
  | .personInUse _ _ _ _ => true
  | .wrapW _ e => isPersonInUseErr e
  | _ => false

/-- errors.As with target *PublisherInUseError. -/
def isPublisherInUseErr : DbErr → Bool
  | .publisherInUse _ _ _ _ => true
  | .wrapW _ e => isPublisherInUseErr e
  | _ => false

/-- errors.As with target *SeriesInUseError. -/
def isSeriesInUseErr : DbErr → Bool
  | .seriesInUse _ _ _ _ => true
  | .wrapW _ e => isSeriesInUseErr e
  | _ => false

/-- Convenience: is an Except value an error? -/
def isErr : Except DbErr α → Bool
  | .error _ => true
  | .ok _ => false

/-- Generated id for an (id, name) table: SQLite hands out one more than the
largest rowid in the table (1 for an empty table). -/
def nextIdOf (rows : List (Nat × String)) : Nat :=
  (rows.foldr (fun r m => max r.1 m) 0) + 1

/-- Generated id for the books table. -/
def nextBookIdOf (rows : List BookRow) : Nat :=
  (rows.foldr (fun r m => max r.book_id m) 0) + 1

/-- Duplicate removal of SQL UNION, keeping first occurrences in order
(structural accumulator version so that it evaluates by rfl). -/
def dedupAcc (seen : List Nat) : List Nat → List Nat
  | [] => []
  | x :: xs => if seen.contains x then dedupAcc seen xs else x :: dedupAcc (x :: seen) xs

/-- SQL UNION of two id lists: concatenate and remove duplicates.  (SQLite
does not promise an order for UNION without ORDER BY; the claims below never
depend on the order, only on emptiness and membership.) -/
def sqlUnion (a b : List Nat) : List Nat := dedupAcc [] (a ++ b)

/-! ## Reads -/

/-- Embedding of BookIDValid: COUNT the books rows with this id and report
count == 1.  (The Go error return covers only engine failures, which the
model's pure store cannot produce.) -/
def BookIDValid (db : DB) (id : Nat) : Bool :=
  (db.books.filter (fun bk => bk.book_id == id)).length = 1

/-- Embedding of getAuthorsListById: validate the book id first (count
query), then join book_author with people for this book.  The join is read
in association-row order; a dangling author_id contributes no row (inner
join). -/
def getAuthorsListById (db : DB) (id : Nat) : Except DbErr (List String) :=
  if !BookIDValid db id then .error (.invalidBookId "getAuthorsListById" id)
  else
    .ok ((db.book_author.filter (fun ba => ba.1 == id)).filterMap
          (fun ba => (db.people.find? (fun p => p.1 == ba.2)).map (fun p => p.2)))

/-- Embedding of getEditorsListById. -/
def getEditorsListById (db : DB) (id : Nat) : Except DbErr (List String) :=
  if !BookIDValid db id then .error (.invalidBookId "getEditorsListById" id)
  else
    .ok ((db.book_editor.filter (fun be => be.1 == id)).filterMap
          (fun be => (db.people.find? (fun p => p.1 == be.2)).map (fun p => p.2)))

/-- Embedding of personName: count check, then name fetch.  The second
match's none branch mirrors the Go scan-error return and is unreachable
after a successful count check. -/
def personName (db : DB) (id : Nat) : Except DbErr String :=
  if (db.people.filter (fun r => r.1 == id)).length = 0 then
    .error (.invalidPersonId "personName" id)
  else
    match db.people.find? (fun r => r.1 == id) with
    | some r => .ok r.2
    | none => .error (.flat "personId: Issue retrieving id from database")

/-- Embedding of booksByPersonId: person-id count check, then the UNION of
the book ids found through book_author and through book_editor. -/
def booksByPersonId (db : DB) (id : Nat) : Except DbErr (List Nat) :=
  if (db.people.filter (fun r => r.1 == id)).length = 0 then
    .error (.invalidPersonId "booksByPersonId" id)
  else
    .ok (sqlUnion
      ((db.book_author.filter (fun ba => ba.2 == id)).map (fun ba => ba.1))
      ((db.book_editor.filter (fun be => be.2 == id)).map (fun be => be.1)))

/-- Embedding of publisherName. -/
def publisherName (db : DB) (id : Nat) : Except DbErr String :=
  if (db.publishers.filter (fun r => r.1 == id)).length = 0 then
    .error (.invalidPublisherId "publisherBooks" id)
  else
    match db.publishers.find? (fun r => r.1 == id) with
    | some r => .ok r.2
    | none => .error (.flat "publisherName, Could not retrieve publisher name")

/-- Embedding of publisherBooks: publisher-id count check, then the ids of
books rows whose publisher_id matches. -/
def publisherBooks (db : DB) (id : Nat) : Except DbErr (List Nat) :=
  if (db.publishers.filter (fun r => r.1 == id)).length = 0 then
    .error (.invalidPublisherId "publisherBooks" id)
  else
    .ok ((db.books.filter (fun bk => bk.publisher_id == id)).map (fun bk => bk.book_id))

/-- Embedding of seriesName. -/
def seriesName (db : DB) (id : Nat) : Except DbErr String :=
  if (db.series.filter (fun r => r.1 == id)).length = 0 then
    .error (.invalidSeriesId "seriesName" id)
  else
    match db.series.find? (fun r => r.1 == id) with
    | some r => .ok r.2
    | none => .error (.flat "seriesName, Could not retrieve series name")

/-- Embedding of seriesBooks: series-id count check, then the ids of books
rows whose (nullable) series_id matches. -/
def seriesBooks (db : DB) (id : Nat) : Except DbErr (List Nat) :=
  if (db.series.filter (fun r => r.1 == id)).length = 0 then
    .error (.invalidSeriesId "seriesBooks" id)
  else
    .ok ((db.books.filter (fun bk => bk.series_id == some id)).map (fun bk => bk.book_id))

/-- Embedding of checkBookInDb: the first-listed author and editor names of
the candidate (zero value "" when the lists are empty), then the UNION of
ids of stored books sharing the title and having an author row
(respectively editor row) with that name; QueryRow reads the first row, and
no row at all means "not in the database" (id 0). -/
def checkBookInDb (db : DB) (b : Book) : Except DbErr Nat :=
  let authorForCheck := (nameListFromString b.author).headD ""
  let editorForCheck := (nameListFromString b.editor).headD ""
  let authorMatches := (db.book_author.filter (fun ba =>
      db.books.any (fun bk => bk.book_id == ba.1 && bk.title == b.title) &&
      db.people.any (fun p => p.1 == ba.2 && p.2 == authorForCheck))).map (fun ba => ba.1)
  let editorMatches := (db.book_editor.filter (fun be =>
      db.books.any (fun bk => bk.book_id == be.1 && bk.title == b.title) &&
      db.people.any (fun p => p.1 == be.2 && p.2 == editorForCheck))).map (fun be => be.1)
  match sqlUnion authorMatches editorMatches with
  | [] => .ok 0
  | i :: _ => .ok i

/-- Embedding of getBookById: validity check, then the single-row select
joining publishers (inner join: a dangling publisher_id surfaces as the
sql.ErrNoRows branch, which the Go code maps to InvalidBookIdError) and
series (left join: a missing series row leaves the name NULL), then the
author and editor lists formatted into display strings.  The Go code calls
log.Fatal when the list fetches fail; the model propagates the error
instead (both fetches cannot fail after the validity check). -/
def getBookById (P : DateParsers) (db : DB) (id : Nat) : Except DbErr Book :=
  if !BookIDValid db id then .error (.invalidBookId "getBookById" id)
  else
    match db.books.find? (fun bk => bk.book_id == id) with
    | none => .error (.invalidBookId "getBookById" id)
    | some bk =>
      match db.publishers.find? (fun p => p.1 == bk.publisher_id) with
      | none => .error (.invalidBookId "getBookById" id)
      | some pub =>
        let seriesNm :=
          match bk.series_id with
          | none => ""
          | some sid =>
            match db.series.find? (fun srow => srow.1 == sid) with
            | none => ""
            | some srow => srow.2
        let purch :=
          match bk.purchased_date with
          | none => PurchasedDate.mk 0 0 0
          | some ds =>
            match setDate P (PurchasedDate.mk 0 0 0) ds with
            | .ok pd => pd
            | .error _ => PurchasedDate.mk 0 0 0
        match getAuthorsListById db id with
        | .error e => .error e
        | .ok authors =>
          match getEditorsListById db id with
          | .error e => .error e
          | .ok editors =>
            .ok { id := id, author := formatNameList authors,
                  editor := formatNameList editors, title := bk.title,
                  subtitle := bk.subtitle.getD "", year := bk.year,
                  edition := bk.edition.getD 0, publisher := pub.2,
                  isbn := bk.isbn, series := seriesNm, status := bk.status,
                  purchased := purch }

/-! ## Entity resolvers (get-or-create by name)

Each mutating operation returns its result together with the post-call
store. -/

/-- Embedding of personId: reject the empty name, return the id of the
first people row with this name, or insert a new row and return its
generated id. -/
def personId (db : DB) (person : String) : Except DbErr Nat × DB :=
  if person.length = 0 then
    (.error (.validation "personId: Person's name cannot be empty."), db)
  else
    match db.people.find? (fun r => r.2 == person) with
    | some r => (.ok r.1, db)
    | none =>
      let id := nextIdOf db.people
      (.ok id, { db with people := db.people ++ [(id, person)] })

/-- Embedding of publisherId (same get-or-create contract on publishers). -/
def publisherId (db : DB) (publisher : String) : Except DbErr Nat × DB :=
  if publisher.length = 0 then
    (.error (.validation "publisherId: Publisher name cannot be empty"), db)
  else
    match db.publishers.find? (fun r => r.2 == publisher) with
    | some r => (.ok r.1, db)
    | none =>
      let id := nextIdOf db.publishers
      (.ok id, { db with publishers := db.publishers ++ [(id, publisher)] })

/-- Embedding of seriesId (same get-or-create contract on series). -/
def seriesId (db : DB) (series : String) : Except DbErr Nat × DB :=
  if series.length = 0 then
    (.error (.validation "seriesId: Cannot have empty series name"), db)
  else
    match db.series.find? (fun r => r.2 == series) with
    | some r => (.ok r.1, db)
    | none =>
      let id := nextIdOf db.series
      (.ok id, { db with series := db.series ++ [(id, series)] })

/-! ## addBook -/

/-- The author-id (or editor-id) resolution loop of addBook: resolve each
name with personId, stopping at the first error.  These calls run on the
plain connection, before the transaction starts, so their inserts are
committed immediately. -/
def resolvePersonList (db : DB) : List String → Except DbErr (List Nat) × DB
  | [] => (.ok [], db)
  | n :: ns =>
    match personId db n with
    | (.error e, db1) => (.error (.wrapV "addBook" e), db1)
    | (.ok pid, db1) =>
      match resolvePersonList db1 ns with
      | (.error e, db2) => (.error e, db2)
      | (.ok ids, db2) => (.ok (pid :: ids), db2)

/-- The series handling of addBook: an empty series name stays NULL,
otherwise resolve (get-or-create) the series name. -/
def resolveSeriesOpt (db : DB) (series : String) : Except DbErr (Option Nat) × DB :=
  if series.length = 0 then (.ok none, db)
  else
    match seriesId db series with
    | (.error e, db1) => (.error (.wrapV "addBook, issue with series" e), db1)
    | (.ok sid, db1) => (.ok (some sid), db1)

/-- INSERT INTO book_author: enforces the composite primary key of the
schema (a duplicate (book_id, author_id) pair makes SQLite report a
constraint violation). -/
def insertBookAuthor (db : DB) (bookId authId : Nat) : Except DbErr Unit × DB :=
  if db.book_author.any (fun ba => ba.1 == bookId && ba.2 == authId) then
    (.error (.sqlConstraint "UNIQUE constraint failed: book_author.book_id, book_author.author_id"), db)
  else
    (.ok (), { db with book_author := db.book_author ++ [(bookId, authId)] })

/-- INSERT INTO book_editor, with the same composite-primary-key rule. -/
def insertBookEditor (db : DB) (bookId edId : Nat) : Except DbErr Unit × DB :=
  if db.book_editor.any (fun be => be.1 == bookId && be.2 == edId) then
    (.error (.sqlConstraint "UNIQUE constraint failed: book_editor.book_id, book_editor.editor_id"), db)
  else
    (.ok (), { db with book_editor := db.book_editor ++ [(bookId, edId)] })

/-- The book_author insertion loop of addBook's transaction. -/
def insertBookAuthorList (db : DB) (bookId : Nat) : List Nat → Except DbErr Unit × DB
  | [] => (.ok (), db)
  | pid :: pids =>
    match insertBookAuthor db bookId pid with
    | (.error e, db1) => (.error (.wrapV "addBook" e), db1)
    | (.ok _, db1) => insertBookAuthorList db1 bookId pids

/-- The book_editor insertion loop of addBook's transaction. -/
def insertBookEditorList (db : DB) (bookId : Nat) : List Nat → Except DbErr Unit × DB
  | [] => (.ok (), db)
  | pid :: pids =>
    match insertBookEditor db bookId pid with
    | (.error e, db1) => (.error (.wrapV "addBook" e), db1)
    | (.ok _, db1) => insertBookEditorList db1 bookId pids

/-- Embedding of addBook.  Duplicate check first; then the author, editor,
publisher and series resolutions run on the plain connection (their inserts
are committed even if a later step fails); then the books-row insert and
the association inserts run inside one transaction: any failure there rolls
back to the pre-transaction store (which still includes the resolution
inserts). -/
def addBook (db : DB) (b : Book) : Except DbErr Nat × DB :=
  match checkBookInDb db b with
  | .error e => (.error (.wrapV "addbook, Couldn't check for duplicate book" e), db)
  | .ok dupId =>
  if dupId != 0 then (.error (.duplicateBook dupId), db)
  else
  match resolvePersonList db (nameListFromString b.author) with
  | (.error e, db1) => (.error e, db1)
  | (.ok authorIdList, db1) =>
  match resolvePersonList db1 (nameListFromString b.editor) with
  | (.error e, db2) => (.error e, db2)
  | (.ok editorIdList, db2) =>
  match publisherId db2 b.publisher with
  | (.error e, db3) => (.error (.wrapV "addBook, issue with publisher" e), db3)
  | (.ok pubId, db3) =>
  match resolveSeriesOpt db3 b.series with
  | (.error e, db4) => (.error e, db4)
  | (.ok serId, db4) =>
    let subtitle : Option String := if b.subtitle.length = 0 then none else some b.subtitle
    let edition : Option Int := if b.edition = 0 then none else some b.edition
    let purDate : Option String :=
      if (pdString b.purchased).length = 0 then none else some (pdString b.purchased)
    let bookId := nextBookIdOf db4.books
    let row : BookRow :=
      { book_id := bookId, title := b.title, subtitle := subtitle, year := b.year,
        edition := edition, publisher_id := pubId, isbn := b.isbn,
        series_id := serId, status := b.status, purchased_date := purDate }
    let tx1 : DB := { db4 with books := db4.books ++ [row] }
    match insertBookAuthorList tx1 bookId authorIdList with
    | (.error e, _) => (.error e, db4)
    | (.ok _, tx2) =>
      match insertBookEditorList tx2 bookId editorIdList with
      | (.error e, _) => (.error e, db4)
      | (.ok _, tx3) => (.ok bookId, tx3)

/-! ## Author/editor set reconciliation -/

/-- The insertion half of updateBookAuthor's transaction: resolve each name
to a person id (get-or-create, inside the transaction) and insert the
association row (subject to the composite primary key). -/
def updateAuthorAdds (db : DB) (id : Nat) : List String → Except DbErr Unit × DB
  | [] => (.ok (), db)
  | a :: rest =>
    match personId db a with
    | (.error e, db1) => (.error (.wrapV "updateBookAuthor" e), db1)
    | (.ok pid, db1) =>
      match insertBookAuthor db1 id pid with
      | (.error e, db2) => (.error (.wrapV "updateBookAuthor" e), db2)
      | (.ok _, db2) => updateAuthorAdds db2 id rest

/-- The deletion half of updateBookAuthor's transaction: resolve each name
and delete the (book, person) association row. -/
def updateAuthorDeletes (db : DB) (id : Nat) : List String → Except DbErr Unit × DB
  | [] => (.ok (), db)
  | a :: rest =>
    match personId db a with
    | (.error e, db1) => (.error (.wrapV "updateBookAuthor" e), db1)
    | (.ok pid, db1) =>
      updateAuthorDeletes
        { db1 with book_author :=
            db1.book_author.filter (fun ba => !(ba.1 == id && ba.2 == pid)) }
        id rest

/-- Embedding of updateBookAuthor: parse the requested list, read the
current list, diff them (order-preserving filters, duplicates kept, exactly
like the Go slices.Contains loops), run the additions and removals in one
transaction, and on success return the freshly formatted list read back
from the store.  Note the Go code does not compare the read-back string
with the request. -/
def updateBookAuthor (db : DB) (id : Nat) (authorString : String) : Except DbErr String × DB :=
  let newAuthorsList := nameListFromString authorString
  match getAuthorsListById db id with
  | .error e => (.error e, db)
  | .ok oldAuthorsList =>
    let authorsToAdd := newAuthorsList.filter (fun a => !oldAuthorsList.contains a)
    let authorsToDelete := oldAuthorsList.filter (fun a => !newAuthorsList.contains a)
    match updateAuthorAdds db id authorsToAdd with
    | (.error e, _) => (.error e, db)
    | (.ok _, tx1) =>
      match updateAuthorDeletes tx1 id authorsToDelete with
      | (.error e, _) => (.error e, db)
      | (.ok _, tx2) =>
        match getAuthorsListById tx2 id with
        | .error e => (.error (.wrapV "updateBookAuthor, Couldn't fetch updated authors" e), tx2)
        | .ok updatedAuthorList => (.ok (formatNameList updatedAuthorList), tx2)

/-- The insertion half of updateBookEditor's transaction. -/
def updateEditorAdds (db : DB) (id : Nat) : List String → Except DbErr Unit × DB
  | [] => (.ok (), db)
  | a :: rest =>
    match personId db a with
    | (.error e, db1) => (.error (.wrapV "updateBookEditor" e), db1)
    | (.ok pid, db1) =>
      match insertBookEditor db1 id pid with
      | (.error e, db2) => (.error (.wrapV "updateBookEditor" e), db2)
      | (.ok _, db2) => updateEditorAdds db2 id rest

/-- The deletion half of updateBookEditor's transaction. -/
def updateEditorDeletes (db : DB) (id : Nat) : List String → Except DbErr Unit × DB
  | [] => (.ok (), db)
  | a :: rest =>
    match personId db a with
    | (.error e, db1) => (.error (.wrapV "updateBookEditor" e), db1)
    | (.ok pid, db1) =>
      updateEditorDeletes
        { db1 with book_editor :=
            db1.book_editor.filter (fun be => !(be.1 == id && be.2 == pid)) }
        id rest

/-- Embedding of updateBookEditor (mirror of updateBookAuthor on the
book_editor relation). -/
def updateBookEditor (db : DB) (id : Nat) (editorString : String) : Except DbErr String × DB :=
  let newEditorsList := nameListFromString editorString
  match getEditorsListById db id with
  | .error e => (.error e, db)
  | .ok oldEditorsList =>
    let editorsToAdd := newEditorsList.filter (fun a => !oldEditorsList.contains a)
    let editorsToDelete := oldEditorsList.filter (fun a => !newEditorsList.contains a)
    match updateEditorAdds db id editorsToAdd with
    | (.error e, _) => (.error e, db)
    | (.ok _, tx1) =>
      match updateEditorDeletes tx1 id editorsToDelete with
      | (.error e, _) => (.error e, db)
      | (.ok _, tx2) =>
        match getEditorsListById tx2 id with
        | .error e => (.error (.wrapV "updateBookEditor, Couldn't fetch updated editors" e), tx2)
        | .ok updatedEditorList => (.ok (formatNameList updatedEditorList), tx2)

/-! ## Scalar field updates used by the claims -/

/-- Embedding of updateBookSubtitle: an empty subtitle is written as NULL,
then the row is read back and compared with the requested value before the
call returns (the consistency check). -/
def updateBookSubtitle (db : DB) (id : Nat) (subtitle : String) : Except DbErr String × DB :=
  let bookSubtitle : Option String := if subtitle.length != 0 then some subtitle else none
  let db1 : DB :=
    { db with books := db.books.map (fun bk =>
        if bk.book_id == id then { bk with subtitle := bookSubtitle } else bk) }
  match db1.books.find? (fun bk => bk.book_id == id) with
  | none => (.error (.flat "updateBookSubtitle: Couldn't get subtitle for book"), db1)
  | some bk =>
    if bk.subtitle != bookSubtitle then
      (.error (.consistency "updateBookSubtitle: Updated subtitle does not match requested subtitle"), db1)
    else (.ok (bk.subtitle.getD ""), db1)

/-- Embedding of updateBookEdition: edition 0 is written as NULL, then the
row is read back and compared (the returned int is the read-back value,
with NULL reading as 0). -/
def updateBookEdition (db : DB) (id : Nat) (edition : Int) : Except DbErr Int × DB :=
  let bookEdition : Option Int := if edition = 0 then none else some edition
  let db1 : DB :=
    { db with books := db.books.map (fun bk =>
        if bk.book_id == id then { bk with edition := bookEdition } else bk) }
  match db1.books.find? (fun bk => bk.book_id == id) with
  | none => (.error (.flat "updateBookEdition, Couldn't retrieve updated edition value"), db1)
  | some bk =>
    if bk.edition != bookEdition then
      (.error (.consistency "updateBookEdition, Updated edition is not the required edition"), db1)
    else (.ok (bk.edition.getD 0), db1)

/-! ## Deletion with orphan cascade -/

/-- Embedding of deletePerson: collect the person's books (in either role);
a non-empty list produces PersonInUseError carrying the current name and
the blocking book ids; otherwise delete the people row. -/
def deletePerson (db : DB) (id : Nat) : Except DbErr Unit × DB :=
  match booksByPersonId db id with
  | .error e => (.error (.wrapW "deletePerson, problem checking books by person" e), db)
  | .ok books =>
    if books.length != 0 then
      match personName db id with
      | .error e => (.error (.wrapW "deletePerson, issue getting name for person" e), db)
      | .ok name => (.error (.personInUse "deletePerson" name id books), db)
    else
      (.ok (), { db with people := db.people.filter (fun r => !(r.1 == id)) })

/-- Embedding of deletePublisher (same check-then-delete discipline). -/
def deletePublisher (db : DB) (id : Nat) : Except DbErr Unit × DB :=
  match publisherBooks db id with
  | .error e => (.error (.wrapW "deletePublisher, problem checking books by publisher" e), db)
  | .ok books =>
    if books.length != 0 then
      match publisherName db id with
      | .error e => (.error (.wrapW "deletePublisher, issue getting name for publisher" e), db)
      | .ok name => (.error (.publisherInUse "deletePublisher" name id books), db)
    else
      (.ok (), { db with publishers := db.publishers.filter (fun r => !(r.1 == id)) })

/-- Embedding of deleteSeries (same check-then-delete discipline). -/
def deleteSeries (db : DB) (id : Nat) : Except DbErr Unit × DB :=
  match seriesBooks db id with
  | .error e => (.error (.wrapW "deleteSeries, problem checking books in series" e), db)
  | .ok books =>
    if books.length != 0 then
      match seriesName db id with
      | .error e => (.error (.wrapW "deleteSeries, issue getting name for series" e), db)
      | .ok name => (.error (.seriesInUse "deleteSeries" name id books), db)
    else
      (.ok (), { db with series := db.series.filter (fun r => !(r.1 == id)) })

/-- The per-person cleanup loop of deleteBook: resolve each name (note this
is personId, a get-or-create, run inside the transaction) and attempt the
deletion, absorbing PersonInUseError (still-in-use people are expected and
left in place) and failing on anything else. -/
def deleteBookPeople (db : DB) : List String → Except DbErr Unit × DB
  | [] => (.ok (), db)
  | p :: ps =>
    match personId db p with
    | (.error e, db1) => (.error (.wrapV "deleteBook" e), db1)
    | (.ok pid, db1) =>
      match deletePerson db1 pid with
      | (.error e, db2) =>
        if isPersonInUseErr e then deleteBookPeople db2 ps
        else (.error (.wrapV "deleteBook, Problem deleting person" e), db2)
      | (.ok _, db2) => deleteBookPeople db2 ps

/-- The series step at the end of deleteBook: when the book has a series
name, resolve it and attempt the deletion under the ignore-if-in-use
policy, then commit; with no series, commit directly.  orig is the pre-call
store returned on the rollback paths. -/
def deleteBookSeriesStep (tx : DB) (book : Book) (orig : DB) : Except DbErr Unit × DB :=
  if book.series != "" then
    match seriesId tx book.series with
    | (.error e, _) => (.error (.wrapV "deleteBook, problem retrieving series" e), orig)
    | (.ok serId, tx1) =>
      match deleteSeries tx1 serId with
      | (.error e, tx2) =>
        if isSeriesInUseErr e then (.ok (), tx2)
        else (.error (.wrapV "deleteBook, problem deleting series" e), orig)
      | (.ok _, tx2) => (.ok (), tx2)
  else (.ok (), tx)

/-- Embedding of deleteBook: hydrate the book, re-parse its formatted
author and editor strings into the people list, then inside one
transaction: delete this book's book_author and book_editor rows, attempt
to delete every listed person (ignore-if-in-use), delete the books row,
attempt to delete the publisher and, if named, the series
(ignore-if-in-use), and commit.  Every unexpected error rolls back to the
pre-call store. -/
def deleteBook (P : DateParsers) (db : DB) (id : Nat) : Except DbErr Unit × DB :=
  match getBookById P db id with
  | .error e => (.error (.wrapW "deleteBook" e), db)
  | .ok book =>
    let peopleList := nameListFromString book.author ++ nameListFromString book.editor
    let tx1 : DB := { db with book_author := db.book_author.filter (fun ba => !(ba.1 == id)) }
    let tx2 : DB := { tx1 with book_editor := tx1.book_editor.filter (fun be => !(be.1 == id)) }
    match deleteBookPeople tx2 peopleList with
    | (.error e, _) => (.error e, db)
    | (.ok _, tx3) =>
      let tx4 : DB := { tx3 with books := tx3.books.filter (fun bk => !(bk.book_id == id)) }
      match publisherId tx4 book.publisher with
      | (.error e, _) => (.error (.wrapV "deleteBook, problem retrieving publisher" e), db)
      | (.ok pubId, tx5) =>
        match deletePublisher tx5 pubId with
        | (.error e, tx6) =>
          if isPublisherInUseErr e then deleteBookSeriesStep tx6 book db
          else (.error (.wrapV "deleteBook, problem deleting publisher" e), db)
        | (.ok _, tx6) => deleteBookSeriesStep tx6 book db

/-! ## Concrete fixtures used by the witnesses and counterexamples -/

/-- Date parsers that reject everything (the claims below never depend on
the parsing of well-formed dates). -/
def noParsers : DateParsers :=
  { parseYear := fun _ => none, parseMonthYear := fun _ => none,
    parseDayMonthYear := fun _ => none }

/-- The empty store. -/
def dbEmpty : DB :=
  { people := [], publishers := [], series := [], books := [],
    book_author := [], book_editor := [] }

/-! ## Lemmas about splitGo -/

theorem splitGoAux_nil (c0 : Char) (sep1 : List Char) (f : Nat) :
    splitGoAux c0 sep1 f [] = [[]] := by
  cases f <;> rfl

theorem splitGoAux_ne_nil (c0 : Char) (sep1 : List Char) :
    ∀ (f : Nat) (s : List Char), splitGoAux c0 sep1 f s ≠ [] := by
  intro f
  induction f with
  | zero => intro s; cases s <;> simp [splitGoAux]
  | succ g ih =>
    intro s
    cases s with
    | nil => simp [splitGoAux]
    | cons c cs =>
      simp only [splitGoAux]
      split
      · simp
      · split <;> simp

theorem splitGo_ne_nil (sep s : List Char) (h : s ≠ []) : splitGo sep s ≠ [] := by
  cases sep with
  | nil => simpa [splitGo] using h
  | cons c0 sep1 => exact splitGoAux_ne_nil c0 sep1 s.length s

theorem isPrefixOf_nil (sep : List Char) : sep.isPrefixOf ([] : List Char) = sep.isEmpty := by
  cases sep <;> rfl

/-- occursIn sep s = false exactly when no suffix of s starts with sep. -/
theorem occursIn_eq_false_iff (sep : List Char) (s : List Char) :
    occursIn sep s = false ↔ ∀ t, t <:+ s → sep.isPrefixOf t = false := by
  induction s with
  | nil =>
    simp only [occursIn, isPrefixOf_nil]
    constructor
    · intro h t ht
      rw [List.suffix_nil.mp ht, isPrefixOf_nil]
      exact h
    · intro h
      have := h [] (List.suffix_refl [])
      rwa [isPrefixOf_nil] at this
  | cons c cs ih =>
    simp only [occursIn, Bool.or_eq_false_iff, ih]
    constructor
    · rintro ⟨h1, h2⟩ t ht
      rcases List.suffix_cons_iff.mp ht with rfl | ht2
      · exact h1
      · exact h2 t ht2
    · intro h
      exact ⟨h _ (List.suffix_refl _),
             fun t ht => h t (List.suffix_cons_iff.mpr (Or.inr ht))⟩

theorem splitGoAux_no_occur (c0 : Char) (sep1 : List Char) :
    ∀ (f : Nat) (s : List Char), occursIn (c0 :: sep1) s = false →
      splitGoAux c0 sep1 f s = [s] := by
  intro f
  induction f with
  | zero => intro s _; cases s <;> rfl
  | succ g ih =>
    intro s hs
    cases s with
    | nil => rfl
    | cons c cs =>
      simp only [occursIn, Bool.or_eq_false_iff] at hs
      have h2 := ih cs hs.2
      simp [splitGoAux, hs.1, h2]

theorem isPrefixOf_self_append (l r : List Char) : l.isPrefixOf (l ++ r) = true := by
  induction l with
  | nil => simp [List.isPrefixOf]
  | cons a as ih => simp [List.isPrefixOf, ih]

/-- Scanning p ++ sep ++ q with no hit inside the p region cuts exactly at
the marked occurrence, leaving the scan to continue on q. -/
theorem splitGoAux_break (c0 : Char) (sep1 : List Char) :
    ∀ (p : List Char) (f : Nat) (q : List Char),
      (∀ t, t <:+ p → t ≠ [] →
        (c0 :: sep1).isPrefixOf (t ++ (c0 :: sep1) ++ q) = false) →
      (p ++ (c0 :: sep1) ++ q).length ≤ f →
      splitGoAux c0 sep1 f (p ++ (c0 :: sep1) ++ q) =
        p :: splitGoAux c0 sep1 (f - p.length - 1) q := by
  intro p
  induction p with
  | nil =>
    intro f q _ hf
    cases f with
    | zero => simp [List.length_append] at hf
    | succ g =>
      simp only [List.nil_append, List.cons_append, splitGoAux,
        isPrefixOf_self_append (c0 :: sep1) q]
      simp [List.drop_succ_cons, List.drop_left sep1 q]
  | cons a p1 ih =>
    intro f q hH hf
    cases f with
    | zero => simp [List.length_append] at hf
    | succ g =>
      have hhead : (c0 :: sep1).isPrefixOf ((a :: p1) ++ (c0 :: sep1) ++ q) = false :=
        hH _ (List.suffix_refl _) (by simp)
      have hrec := ih g q
        (fun t ht hne => hH t (ht.trans (List.suffix_cons a p1)) hne)
        (by simp only [List.length_append, List.length_cons] at hf ⊢; omega)
      simp only [List.cons_append] at hhead ⊢
      simp only [splitGoAux, hhead]
      rw [hrec]
      have hfuel : g - p1.length - 1 = g + 1 - (p1.length + 1) - 1 := by omega
      simp [hfuel]

theorem splitGo_break (c0 : Char) (sep1 : List Char) (p q : List Char)
    (hH : ∀ t, t <:+ p → t ≠ [] →
      (c0 :: sep1).isPrefixOf (t ++ (c0 :: sep1) ++ q) = false)
    (hq : occursIn (c0 :: sep1) q = false) :
    splitGo (c0 :: sep1) (p ++ (c0 :: sep1) ++ q) = [p, q] := by
  show splitGoAux c0 sep1 (p ++ (c0 :: sep1) ++ q).length (p ++ (c0 :: sep1) ++ q) = [p, q]
  rw [splitGoAux_break c0 sep1 p _ q hH (le_refl _), splitGoAux_no_occur c0 sep1 _ q hq]

/-- No occurrence of " and " can start strictly inside p when p contains no
" and " and does not end in " and": a window of length 1 to 3 fails on a
character mismatch inside the separator itself, a window of length 4 forces
p to end in " and", and a longer window lies inside p. -/
theorem sepAnd_early_free (p q : List Char)
    (hp : occursIn sepAnd p = false)
    (hsuf : ([' ', 'a', 'n', 'd'] : List Char).isSuffixOf p = false) :
    ∀ t, t <:+ p → t ≠ [] → sepAnd.isPrefixOf (t ++ sepAnd ++ q) = false := by
  intro t ht hne
  have hpt : sepAnd.isPrefixOf t = false := (occursIn_eq_false_iff sepAnd p).mp hp t ht
  rcases t with _ | ⟨a, _ | ⟨b, _ | ⟨c, _ | ⟨d, _ | ⟨e, t5⟩⟩⟩⟩⟩
  · exact absurd rfl hne
  · have h1 : (('a' : Char) == ' ') = false := by decide
    simp [sepAnd, List.isPrefixOf, h1]
  · have h1 : (('n' : Char) == ' ') = false := by decide
    simp [sepAnd, List.isPrefixOf, h1]
  · have h1 : (('d' : Char) == ' ') = false := by decide
    simp [sepAnd, List.isPrefixOf, h1]
  · cases hres : sepAnd.isPrefixOf ([a, b, c, d] ++ sepAnd ++ q) with
    | false => rfl
    | true =>
      exfalso
      simp only [sepAnd, List.isPrefixOf, List.cons_append, List.nil_append,
        Bool.and_eq_true, beq_iff_eq] at hres
      obtain ⟨h1, h2, h3, h4, _⟩ := hres
      rw [← h1, ← h2, ← h3, ← h4] at ht
      have : ([' ', 'a', 'n', 'd'] : List Char).isSuffixOf p = true :=
        List.isSuffixOf_iff_suffix.mpr ht
      rw [hsuf] at this
      exact Bool.false_ne_true this
  · have heq : sepAnd.isPrefixOf ((a :: b :: c :: d :: e :: t5) ++ sepAnd ++ q) =
        sepAnd.isPrefixOf (a :: b :: c :: d :: e :: t5) := by
      simp [sepAnd, List.isPrefixOf, List.cons_append]
    rw [heq, hpt]

/-- No occurrence of ", " can start strictly inside n when n contains no
", ": a window of length 1 fails on the comma/space mismatch, and a longer
window lies inside n. -/
theorem sepComma_early_free (n q : List Char)
    (hn : occursIn sepComma n = false) :
    ∀ t, t <:+ n → t ≠ [] → sepComma.isPrefixOf (t ++ sepComma ++ q) = false := by
  intro t ht hne
  have hpt : sepComma.isPrefixOf t = false := (occursIn_eq_false_iff sepComma n).mp hn t ht
  rcases t with _ | ⟨a, _ | ⟨b, t2⟩⟩
  · exact absurd rfl hne
  · have h1 : ((' ' : Char) == ',') = false := by decide
    simp [sepComma, List.isPrefixOf, h1]
  · have heq : sepComma.isPrefixOf ((a :: b :: t2) ++ sepComma ++ q) =
        sepComma.isPrefixOf (a :: b :: t2) := by
      simp [sepComma, List.isPrefixOf, List.cons_append]
    rw [heq, hpt]

theorem joinComma_cons_cons (n m : List Char) (ns : List (List Char)) :
    joinComma (n :: m :: ns) = n ++ sepComma ++ joinComma (m :: ns) := rfl

theorem splitGoAux_joinComma :
    ∀ (ns : List (List Char)) (f : Nat), ns ≠ [] →
      (∀ n ∈ ns, occursIn sepComma n = false) →
      (joinComma ns).length ≤ f →
      splitGoAux ',' [' '] f (joinComma ns) = ns := by
  intro ns
  induction ns with
  | nil => intro f h; exact absurd rfl h
  | cons n ns1 ih =>
    intro f _ hocc hf
    cases ns1 with
    | nil => exact splitGoAux_no_occur ',' [' '] f n (hocc n (by simp))
    | cons m ns2 =>
      have hsep : (sepComma : List Char) = ',' :: [' '] := rfl
      rw [joinComma_cons_cons, hsep] at hf ⊢
      have hfree := sepComma_early_free n (joinComma (m :: ns2)) (hocc n (by simp))
      rw [hsep] at hfree
      have hbreak := splitGoAux_break ',' [' '] n f (joinComma (m :: ns2)) hfree hf
      rw [hbreak]
      have hrest := ih (f - n.length - 1) (by simp)
        (fun x hx => hocc x (by simp [hx]))
        (by simp only [List.length_append, List.length_cons,
              List.length_nil] at hf ⊢; omega)
      rw [hrest]

theorem splitGo_joinComma (ns : List (List Char)) (h1 : ns ≠ [])
    (h2 : ∀ n ∈ ns, occursIn sepComma n = false) :
    splitGo sepComma (joinComma ns) = ns := by
  show splitGoAux ',' [' '] (joinComma ns).length (joinComma ns) = ns
  exact splitGoAux_joinComma ns _ h1 h2 (le_refl _)

/-! ## The round trip parse-after-format -/

theorem formatNameListCL_cons_cons (n m : List Char) (rest : List (List Char)) :
    formatNameListCL (n :: m :: rest) =
      joinComma ((n :: m :: rest).dropLast) ++ sepAnd ++ (n :: m :: rest).getLastD [] := by
  cases rest <;> rfl

theorem dropLast_append_getLastD (l : List (List Char)) (h : l ≠ []) :
    l.dropLast ++ [l.getLastD []] = l := by
  rw [List.getLastD_eq_getLast?, List.getLast?_eq_getLast l h]
  exact List.dropLast_append_getLast h

theorem nameList_roundtrip_nil : nameListFromStringCL (formatNameListCL []) = [] := rfl

theorem nameList_roundtrip_single (n : List Char) (hne : n ≠ [])
    (hocc : occursIn sepAnd n = false) :
    nameListFromStringCL (formatNameListCL [n]) = [n] := by
  have hsplit : splitGo sepAnd n = [n] :=
    splitGoAux_no_occur ' ' ['a', 'n', 'd', ' '] n.length n hocc
  have hlen : ¬ n.length = 0 := by simpa [List.length_eq_zero] using hne
  simp [formatNameListCL, nameListFromStringCL, hlen, hsplit]

theorem nameList_roundtrip_multi (n m : List Char) (rest : List (List Char))
    (hpA : occursIn sepAnd (joinComma ((n :: m :: rest).dropLast)) = false)
    (hpS : ([' ', 'a', 'n', 'd'] : List Char).isSuffixOf
      (joinComma ((n :: m :: rest).dropLast)) = false)
    (hq : occursIn sepAnd ((n :: m :: rest).getLastD []) = false)
    (hcomma : ∀ x ∈ (n :: m :: rest).dropLast, occursIn sepComma x = false) :
    nameListFromStringCL (formatNameListCL (n :: m :: rest)) = n :: m :: rest := by
  rw [formatNameListCL_cons_cons]
  have hfree := sepAnd_early_free (joinComma ((n :: m :: rest).dropLast))
    ((n :: m :: rest).getLastD []) hpA hpS
  have hsplit := splitGo_break ' ' ['a', 'n', 'd', ' ']
    (joinComma ((n :: m :: rest).dropLast)) ((n :: m :: rest).getLastD [])
    (by rw [show (' ' :: ['a', 'n', 'd', ' '] : List Char) = sepAnd from rfl]; exact hfree)
    (by rw [show (' ' :: ['a', 'n', 'd', ' '] : List Char) = sepAnd from rfl]; exact hq)
  rw [show (' ' :: ['a', 'n', 'd', ' '] : List Char) = sepAnd from rfl] at hsplit
  have hlen : ¬ (joinComma ((n :: m :: rest).dropLast) ++ sepAnd ++
      (n :: m :: rest).getLastD []).length = 0 := by
    simp [sepAnd, List.length_append]
  have hdrop : (n :: m :: rest).dropLast ≠ [] := by
    cases rest <;> simp [List.dropLast]
  simp only [nameListFromStringCL, hlen, if_false, hsplit]
  simp only [List.length_cons, List.length_nil, List.headD, List.getD]
  have hcsplit := splitGo_joinComma ((n :: m :: rest).dropLast) hdrop hcomma
  simp only [if_neg (by omega : ¬ (2 : Nat) = 1)]
  rw [hcsplit]
  exact dropLast_append_getLastD _ (by simp)

theorem string_mk_data (s : String) : String.mk s.data = s := rfl

theorem map_mk_map_data (l : List String) : (l.map String.data).map String.mk = l := by
  induction l with
  | nil => rfl
  | cons a rest ih => simp [ih]

theorem getLastD_mem_of_ne_nil (l : List (List Char)) (h : l ≠ []) :
    l.getLastD [] ∈ l := by
  rw [List.getLastD_eq_getLast?, List.getLast?_eq_getLast l h]
  exact List.getLast_mem h

/-- C5 (amended): format-then-parse reproduces a list of 0 to 4 names
when, beyond the claim's own condition that no name contains " and " or
", ", additionally (a) a single name is non-empty, and (b) with two or more
names the comma-joined prefix of all but the last name neither contains
" and " nor ends with " and" (ruling out, for example, a name that ends in
" and", or the name "and" just before the last). -/
theorem c5_format_parse_roundtrip (names : List String)
    (_hlen : names.length ≤ 4)
    (hand : ∀ nm ∈ names, occursIn sepAnd nm.data = false)
    (hcomma : ∀ nm ∈ names, occursIn sepComma nm.data = false)
    (hone : names.length = 1 → (names.headD "").data ≠ [])
    (hpre : 2 ≤ names.length →
      occursIn sepAnd (joinComma ((names.map String.data).dropLast)) = false ∧
      ([' ', 'a', 'n', 'd'] : List Char).isSuffixOf
        (joinComma ((names.map String.data).dropLast)) = false) :
    nameListFromString (formatNameList names) = names := by
  match names with
  | [] => rfl
  | [n] =>
    show (nameListFromStringCL (formatNameListCL [n.data])).map String.mk = [n]
    rw [nameList_roundtrip_single n.data (hone rfl) (hand n (by simp))]
    simp [string_mk_data]
  | n :: m :: rest =>
    show (nameListFromStringCL (formatNameListCL
      (n.data :: m.data :: rest.map String.data))).map String.mk = n :: m :: rest
    have hmap : n.data :: m.data :: rest.map String.data =
        (n :: m :: rest).map String.data := by simp
    have h2 : 2 ≤ (n :: m :: rest).length := by simp
    have hq : occursIn sepAnd
        ((n.data :: m.data :: rest.map String.data).getLastD []) = false := by
      rw [hmap]
      have hmem := getLastD_mem_of_ne_nil ((n :: m :: rest).map String.data) (by simp)
      obtain ⟨nm, hnm, heq⟩ := List.mem_map.mp hmem
      rw [← heq]
      exact hand nm hnm
    have hcomma2 : ∀ x ∈ (n.data :: m.data :: rest.map String.data).dropLast,
        occursIn sepComma x = false := by
      intro x hx
      have hx2 : x ∈ (n :: m :: rest).map String.data := by
        rw [← hmap]
        exact (List.dropLast_sublist _).subset hx
      obtain ⟨nm, hnm, heq⟩ := List.mem_map.mp hx2
      rw [← heq]
      exact hcomma nm hnm
    rw [nameList_roundtrip_multi n.data m.data (rest.map String.data)
      (by rw [hmap]; exact (hpre h2).1)
      (by rw [hmap]; exact (hpre h2).2)
      hq hcomma2]
    rw [hmap, map_mk_map_data]

/-- C5 witness at the concrete pair of names given in the specification. -/
theorem c5_roundtrip_witness :
    nameListFromString (formatNameList ["Peter J. Gentry", "Stephen J. Wellum"]) =
      ["Peter J. Gentry", "Stephen J. Wellum"] :=
  c5_format_parse_roundtrip ["Peter J. Gentry", "Stephen J. Wellum"]
    (by decide) (by decide) (by decide) (by decide) (by decide)

/-- C5 counterexample: the one-element list holding the empty name meets
the claim's stated side condition (no name contains " and " or ", ") and
has 0 to 4 names, yet format gives "" and parse gives back the empty list,
not the original one-element list. -/
theorem c5_counterexample :
    (∀ nm ∈ ([""] : List String),
      occursIn sepAnd nm.data = false ∧ occursIn sepComma nm.data = false) ∧
    ([""] : List String).length ≤ 4 ∧
    nameListFromString (formatNameList [""]) = [] ∧
    nameListFromString (formatNameList [""]) ≠ [""] := by
  refine ⟨?_, by decide, by decide, by decide⟩
  intro nm hnm
  rw [List.mem_singleton] at hnm
  subst hnm
  exact ⟨rfl, rfl⟩

/-! ## C10: setDate on four or more words -/

theorem splitGo_single_space_ne_nil (s : String) : splitGo [' '] s.data ≠ [] :=
  splitGoAux_ne_nil ' ' [] s.data.length s.data

/-- C10: an input of four or more space-separated words falls through the
switch of setDate: the call returns success and the receiver's year, month
and day are untouched; and an error (DateParsingError) can only arise for
word counts 1, 2 or 3 (0 words is unreachable since strings.Split never
yields an empty slice). -/
theorem c10_setDate_word_count (P : DateParsers) (pd : PurchasedDate) (s : String) :
    (4 ≤ (splitGo [' '] s.data).length → setDate P pd s = .ok pd) ∧
    (∀ e, setDate P pd s = .error e →
      1 ≤ (splitGo [' '] s.data).length ∧ (splitGo [' '] s.data).length ≤ 3) := by
  rcases hsp : splitGo [' '] s.data with _ | ⟨a, _ | ⟨b, _ | ⟨c, _ | ⟨d, rest⟩⟩⟩⟩
  · exact absurd hsp (splitGo_single_space_ne_nil s)
  · refine ⟨fun h4 => by simp at h4, fun e he => by simp⟩
  · refine ⟨fun h4 => by simp at h4, fun e he => by simp⟩
  · refine ⟨fun h4 => by simp at h4, fun e he => by simp⟩
  · refine ⟨fun _ => ?_, fun e he => ?_⟩
    · show (match (splitGo [' '] s.data).length with
        | 0 => _ | 1 => _ | 2 => _ | 3 => _ | _ + 4 => Except.ok pd) = Except.ok pd
      rw [hsp]
      simp [List.length_cons]
    · exfalso
      have : setDate P pd s = .ok pd := by
        show (match (splitGo [' '] s.data).length with
          | 0 => _ | 1 => _ | 2 => _ | 3 => _ | _ + 4 => Except.ok pd) = Except.ok pd
        rw [hsp]
        simp [List.length_cons]
      rw [this] at he
      cases he

/-- C10 witness: a concrete four-word input with every parser failing. -/
theorem c10_setDate_witness :
    4 ≤ (splitGo [' '] ("a b c d" : String).data).length ∧
    setDate noParsers (PurchasedDate.mk 7 8 9) "a b c d" =
      .ok (PurchasedDate.mk 7 8 9) :=
  ⟨by decide,
   (c10_setDate_word_count noParsers (PurchasedDate.mk 7 8 9) "a b c d").1 (by decide)⟩

/-! ## Small list lemmas for the store -/

theorem dedupAcc_subset (x : Nat) :
    ∀ (l seen : List Nat), x ∈ dedupAcc seen l → x ∈ l := by
  intro l
  induction l with
  | nil => intro seen h; exact absurd h (List.not_mem_nil x)
  | cons a as ih =>
    intro seen h
    simp only [dedupAcc] at h
    split at h
    · exact List.mem_cons_of_mem a (ih seen h)
    · rcases List.mem_cons.mp h with rfl | h2
      · exact List.mem_cons_self x as
      · exact List.mem_cons_of_mem a (ih _ h2)

theorem sqlUnion_ne_nil (a b : List Nat) (h : a ++ b ≠ []) : sqlUnion a b ≠ [] := by
  unfold sqlUnion
  cases hab : a ++ b with
  | nil => exact absurd hab h
  | cons x xs => simp [dedupAcc]

theorem sqlUnion_mem (a b : List Nat) (x : Nat) (h : x ∈ sqlUnion a b) : x ∈ a ++ b :=
  dedupAcc_subset x (a ++ b) [] h

/-! ## C7: explicit existence check before the author/editor fetch -/

/-- C7: getAuthorsListById and getEditorsListById check the book id with a
count query first: an id with no books row yields InvalidBookIdError, and a
valid id with zero associations yields the empty list with no error. -/
theorem c7_existence_check_before_fetch (db : DB) (id : Nat) :
    ((db.books.filter (fun bk => bk.book_id == id)).length = 0 →
      getAuthorsListById db id = .error (.invalidBookId "getAuthorsListById" id) ∧
      getEditorsListById db id = .error (.invalidBookId "getEditorsListById" id)) ∧
    ((db.books.filter (fun bk => bk.book_id == id)).length = 1 →
      (db.book_author.filter (fun ba => ba.1 == id) = [] →
        getAuthorsListById db id = .ok []) ∧
      (db.book_editor.filter (fun be => be.1 == id) = [] →
        getEditorsListById db id = .ok [])) := by
  constructor
  · intro h0
    constructor <;> simp [getAuthorsListById, getEditorsListById, BookIDValid, h0]
  · intro h1
    constructor <;> intro hemp <;>
      simp [getAuthorsListById, getEditorsListById, BookIDValid, h1, hemp]

/-- One book (id 1, publisher 1) with no author and no editor rows. -/
def dbLoneBook : DB :=
  { people := [], publishers := [(1, "P")], series := [],
    books := [{ book_id := 1, title := "T", subtitle := none, year := 2000,
                edition := none, publisher_id := 1, isbn := "i", series_id := none,
                status := "Owned", purchased_date := none }],
    book_author := [], book_editor := [] }

/-- C7 witness: id 7 is unknown (typed error), id 1 is valid with zero
associations (empty list, no error). -/
theorem c7_existence_check_witness :
    getAuthorsListById dbLoneBook 7 = .error (.invalidBookId "getAuthorsListById" 7) ∧
    getAuthorsListById dbLoneBook 1 = .ok [] :=
  ⟨((c7_existence_check_before_fetch dbLoneBook 7).1 (by decide)).1,
   ((c7_existence_check_before_fetch dbLoneBook 1).2 (by decide)).1 (by decide)⟩

/-! ## C6: the get-or-create entity resolvers -/

/-- C6: each resolver returns the existing row's id without writing,
inserts exactly one new row for a new name (so a second call with the same
name returns the same id on the unchanged store, which then holds exactly
one row with that name), and rejects the empty name without writing. -/
theorem c6_resolver_get_or_create (db : DB) (nm : String) (hne : ¬ nm.length = 0) :
    ((∀ r, db.people.find? (fun x => x.2 == nm) = some r → personId db nm = (.ok r.1, db)) ∧
     (db.people.find? (fun x => x.2 == nm) = none →
       personId db nm = (.ok (nextIdOf db.people),
         { db with people := db.people ++ [(nextIdOf db.people, nm)] }) ∧
       (((personId db nm).2).people.filter (fun x => x.2 == nm)).length = 1 ∧
       personId (personId db nm).2 nm = (.ok (nextIdOf db.people), (personId db nm).2)) ∧
     personId db "" = (.error (.validation "personId: Person's name cannot be empty."), db)) ∧
    ((∀ r, db.publishers.find? (fun x => x.2 == nm) = some r → publisherId db nm = (.ok r.1, db)) ∧
     (db.publishers.find? (fun x => x.2 == nm) = none →
       publisherId db nm = (.ok (nextIdOf db.publishers),
         { db with publishers := db.publishers ++ [(nextIdOf db.publishers, nm)] }) ∧
       (((publisherId db nm).2).publishers.filter (fun x => x.2 == nm)).length = 1 ∧
       publisherId (publisherId db nm).2 nm = (.ok (nextIdOf db.publishers), (publisherId db nm).2)) ∧
     publisherId db "" = (.error (.validation "publisherId: Publisher name cannot be empty"), db)) ∧
    ((∀ r, db.series.find? (fun x => x.2 == nm) = some r → seriesId db nm = (.ok r.1, db)) ∧
     (db.series.find? (fun x => x.2 == nm) = none →
       seriesId db nm = (.ok (nextIdOf db.series),
         { db with series := db.series ++ [(nextIdOf db.series, nm)] }) ∧
       (((seriesId db nm).2).series.filter (fun x => x.2 == nm)).length = 1 ∧
       seriesId (seriesId db nm).2 nm = (.ok (nextIdOf db.series), (seriesId db nm).2)) ∧
     seriesId db "" = (.error (.validation "seriesId: Cannot have empty series name"), db)) := by
  refine ⟨⟨?_, ?_, by simp [personId]⟩, ⟨?_, ?_, by simp [publisherId]⟩,
          ⟨?_, ?_, by simp [seriesId]⟩⟩
  · intro r hr
    simp [personId, hne, hr]
  · intro hnone
    have hfilt : db.people.filter (fun x => x.2 == nm) = [] :=
      List.filter_eq_nil_iff.mpr (List.find?_eq_none.mp hnone)
    have hfirst : personId db nm = (.ok (nextIdOf db.people),
        { db with people := db.people ++ [(nextIdOf db.people, nm)] }) := by
      simp [personId, hne, hnone]
    refine ⟨hfirst, ?_, ?_⟩
    · rw [hfirst]
      simp [List.filter_append, hfilt]
    · rw [hfirst]
      simp only [personId, hne, if_false, List.find?_append, hnone, Option.none_or]
      simp
  · intro r hr
    simp [publisherId, hne, hr]
  · intro hnone
    have hfilt : db.publishers.filter (fun x => x.2 == nm) = [] :=
      List.filter_eq_nil_iff.mpr (List.find?_eq_none.mp hnone)
    have hfirst : publisherId db nm = (.ok (nextIdOf db.publishers),
        { db with publishers := db.publishers ++ [(nextIdOf db.publishers, nm)] }) := by
      simp [publisherId, hne, hnone]
    refine ⟨hfirst, ?_, ?_⟩
    · rw [hfirst]
      simp [List.filter_append, hfilt]
    · rw [hfirst]
      simp only [publisherId, hne, if_false, List.find?_append, hnone, Option.none_or]
      simp
  · intro r hr
    simp [seriesId, hne, hr]
  · intro hnone
    have hfilt : db.series.filter (fun x => x.2 == nm) = [] :=
      List.filter_eq_nil_iff.mpr (List.find?_eq_none.mp hnone)
    have hfirst : seriesId db nm = (.ok (nextIdOf db.series),
        { db with series := db.series ++ [(nextIdOf db.series, nm)] }) := by
      simp [seriesId, hne, hnone]
    refine ⟨hfirst, ?_, ?_⟩
    · rw [hfirst]
      simp [List.filter_append, hfilt]
    · rw [hfirst]
      simp only [seriesId, hne, if_false, List.find?_append, hnone, Option.none_or]
      simp

/-- One existing person (1, "A"). -/
def dbPersonA : DB := { dbEmpty with people := [(1, "A")] }

/-- C6 witness: the existing name resolves to its id without writing, and a
new name is created once and found on the second call. -/
theorem c6_resolver_witness :
    personId dbPersonA "A" = (.ok 1, dbPersonA) ∧
    personId dbPersonA "New" =
      (.ok 2, { dbPersonA with people := [(1, "A"), (2, "New")] }) ∧
    personId { dbPersonA with people := [(1, "A"), (2, "New")] } "New" =
      (.ok 2, { dbPersonA with people := [(1, "A"), (2, "New")] }) := by
  refine ⟨((c6_resolver_get_or_create dbPersonA "A" (by decide)).1.1 (1, "A") (by decide)), ?_, ?_⟩
  · exact ((c6_resolver_get_or_create dbPersonA "New" (by decide)).1.2.1 (by decide)).1
  · have h := ((c6_resolver_get_or_create dbPersonA "New" (by decide)).1.2.1 (by decide)).2.2
    have hfirst := ((c6_resolver_get_or_create dbPersonA "New" (by decide)).1.2.1 (by decide)).1
    rw [hfirst] at h
    exact h

/-! ## C3: in-use protection on direct deletion -/

/-- C3: a person, publisher or series referenced by at least one book is
not deleted: the delete call returns the in-use error carrying the entity's
current name and the blocking book-id list, and the whole store is returned
unchanged. -/
theorem c3_delete_referenced_entity (db : DB) (id : Nat) :
    ((∀ r, r ∈ db.people → r.1 = id →
      (∃ b, (b, id) ∈ db.book_author ∨ (b, id) ∈ db.book_editor) →
      ∃ nm bs, personName db id = .ok nm ∧ booksByPersonId db id = .ok bs ∧ bs ≠ [] ∧
        deletePerson db id = (.error (.personInUse "deletePerson" nm id bs), db))) ∧
    ((∀ r, r ∈ db.publishers → r.1 = id →
      (∃ bk, bk ∈ db.books ∧ bk.publisher_id = id) →
      ∃ nm bs, publisherName db id = .ok nm ∧ publisherBooks db id = .ok bs ∧ bs ≠ [] ∧
        deletePublisher db id = (.error (.publisherInUse "deletePublisher" nm id bs), db))) ∧
    ((∀ r, r ∈ db.series → r.1 = id →
      (∃ bk, bk ∈ db.books ∧ bk.series_id = some id) →
      ∃ nm bs, seriesName db id = .ok nm ∧ seriesBooks db id = .ok bs ∧ bs ≠ [] ∧
        deleteSeries db id = (.error (.seriesInUse "deleteSeries" nm id bs), db))) := by
  refine ⟨?_, ?_, ?_⟩
  · intro r hr hrid href
    have hmem : r ∈ db.people.filter (fun x => x.1 == id) :=
      List.mem_filter.mpr ⟨hr, by simp [hrid]⟩
    have hcount : ¬ (db.people.filter (fun x => x.1 == id)).length = 0 := by
      intro h0
      rw [List.length_eq_zero] at h0
      rw [h0] at hmem
      exact absurd hmem (List.not_mem_nil r)
    obtain ⟨b, hb⟩ := href
    have hbs : booksByPersonId db id = .ok (sqlUnion
        ((db.book_author.filter (fun ba => ba.2 == id)).map (fun ba => ba.1))
        ((db.book_editor.filter (fun be => be.2 == id)).map (fun be => be.1))) := by
      simp [booksByPersonId, hcount]
    have hbsne : sqlUnion
        ((db.book_author.filter (fun ba => ba.2 == id)).map (fun ba => ba.1))
        ((db.book_editor.filter (fun be => be.2 == id)).map (fun be => be.1)) ≠ [] := by
      apply sqlUnion_ne_nil
      rcases hb with hb | hb
      · have : b ∈ (db.book_author.filter (fun ba => ba.2 == id)).map (fun ba => ba.1) :=
          List.mem_map.mpr ⟨(b, id), List.mem_filter.mpr ⟨hb, by simp⟩, rfl⟩
        intro hnil
        rw [List.append_eq_nil] at hnil
        rw [hnil.1] at this
        exact absurd this (List.not_mem_nil b)
      · have : b ∈ (db.book_editor.filter (fun be => be.2 == id)).map (fun be => be.1) :=
          List.mem_map.mpr ⟨(b, id), List.mem_filter.mpr ⟨hb, by simp⟩, rfl⟩
        intro hnil
        rw [List.append_eq_nil] at hnil
        rw [hnil.2] at this
        exact absurd this (List.not_mem_nil b)
    have hfind : ∃ x, db.people.find? (fun r => r.1 == id) = some x := by
      have h1 : (db.people.find? (fun r => r.1 == id)).isSome := by
        rw [List.find?_isSome]
        exact ⟨r, hr, by simp [hrid]⟩
      exact Option.isSome_iff_exists.mp h1
    obtain ⟨x, hx⟩ := hfind
    refine ⟨x.2, _, ?_, hbs, hbsne, ?_⟩
    · simp [personName, hcount, hx]
    · simp only [deletePerson, hbs]
      have hlen : (sqlUnion
          ((db.book_author.filter (fun ba => ba.2 == id)).map (fun ba => ba.1))
          ((db.book_editor.filter (fun be => be.2 == id)).map (fun be => be.1))).length ≠ 0 := by
        simpa [List.length_eq_zero] using hbsne
      simp [hlen, personName, hcount, hx]
  · intro r hr hrid href
    have hmem : r ∈ db.publishers.filter (fun x => x.1 == id) :=
      List.mem_filter.mpr ⟨hr, by simp [hrid]⟩
    have hcount : ¬ (db.publishers.filter (fun x => x.1 == id)).length = 0 := by
      intro h0
      rw [List.length_eq_zero] at h0
      rw [h0] at hmem
      exact absurd hmem (List.not_mem_nil r)
    obtain ⟨bk, hbk, hbkp⟩ := href
    have hbs : publisherBooks db id = .ok
        ((db.books.filter (fun x => x.publisher_id == id)).map (fun x => x.book_id)) := by
      simp [publisherBooks, hcount]
    have hbsne :
        (db.books.filter (fun x => x.publisher_id == id)).map (fun x => x.book_id) ≠ [] := by
      have : bk.book_id ∈ (db.books.filter (fun x => x.publisher_id == id)).map
          (fun x => x.book_id) :=
        List.mem_map.mpr ⟨bk, List.mem_filter.mpr ⟨hbk, by simp [hbkp]⟩, rfl⟩
      intro hnil
      rw [hnil] at this
      exact absurd this (List.not_mem_nil _)
    have hfind : ∃ x, db.publishers.find? (fun r => r.1 == id) = some x := by
      have h1 : (db.publishers.find? (fun r => r.1 == id)).isSome := by
        rw [List.find?_isSome]
        exact ⟨r, hr, by simp [hrid]⟩
      exact Option.isSome_iff_exists.mp h1
    obtain ⟨x, hx⟩ := hfind
    refine ⟨x.2, _, ?_, hbs, hbsne, ?_⟩
    · simp [publisherName, hcount, hx]
    · simp only [deletePublisher, hbs]
      have hlen : ((db.books.filter (fun x => x.publisher_id == id)).map
          (fun x => x.book_id)).length ≠ 0 := by
        simpa [List.length_eq_zero] using hbsne
      simp [hlen, publisherName, hcount, hx]
      exact ⟨bk, hbk, hbkp⟩
  · intro r hr hrid href
    have hmem : r ∈ db.series.filter (fun x => x.1 == id) :=
      List.mem_filter.mpr ⟨hr, by simp [hrid]⟩
    have hcount : ¬ (db.series.filter (fun x => x.1 == id)).length = 0 := by
      intro h0
      rw [List.length_eq_zero] at h0
      rw [h0] at hmem
      exact absurd hmem (List.not_mem_nil r)
    obtain ⟨bk, hbk, hbkp⟩ := href
    have hbs : seriesBooks db id = .ok
        ((db.books.filter (fun x => x.series_id == some id)).map (fun x => x.book_id)) := by
      simp [seriesBooks, hcount]
    have hbsne :
        (db.books.filter (fun x => x.series_id == some id)).map (fun x => x.book_id) ≠ [] := by
      have : bk.book_id ∈ (db.books.filter (fun x => x.series_id == some id)).map
          (fun x => x.book_id) :=
        List.mem_map.mpr ⟨bk, List.mem_filter.mpr ⟨hbk, by simp [hbkp]⟩, rfl⟩
      intro hnil
      rw [hnil] at this
      exact absurd this (List.not_mem_nil _)
    have hfind : ∃ x, db.series.find? (fun r => r.1 == id) = some x := by
      have h1 : (db.series.find? (fun r => r.1 == id)).isSome := by
        rw [List.find?_isSome]
        exact ⟨r, hr, by simp [hrid]⟩
      exact Option.isSome_iff_exists.mp h1
    obtain ⟨x, hx⟩ := hfind
    refine ⟨x.2, _, ?_, hbs, hbsne, ?_⟩
    · simp [seriesName, hcount, hx]
    · simp only [deleteSeries, hbs]
      have hlen : ((db.books.filter (fun x => x.series_id == some id)).map
          (fun x => x.book_id)).length ≠ 0 := by
        simpa [List.length_eq_zero] using hbsne
      simp [hlen, seriesName, hcount, hx]
      exact ⟨bk, hbk, hbkp⟩

/-- A store whose single book references person 1 (author), publisher 1 and
series 1. -/
def dbInUse : DB :=
  { people := [(1, "A")], publishers := [(1, "P")], series := [(1, "S")],
    books := [{ book_id := 1, title := "T", subtitle := none, year := 2000,
                edition := none, publisher_id := 1, isbn := "i", series_id := some 1,
                status := "Owned", purchased_date := none }],
    book_author := [(1, 1)], book_editor := [] }

/-- C3 witness: all three referenced entities are protected on dbInUse. -/
theorem c3_delete_referenced_witness :
    (∃ nm bs, personName dbInUse 1 = .ok nm ∧ booksByPersonId dbInUse 1 = .ok bs ∧ bs ≠ [] ∧
      deletePerson dbInUse 1 = (.error (.personInUse "deletePerson" nm 1 bs), dbInUse)) ∧
    (∃ nm bs, publisherName dbInUse 1 = .ok nm ∧ publisherBooks dbInUse 1 = .ok bs ∧ bs ≠ [] ∧
      deletePublisher dbInUse 1 = (.error (.publisherInUse "deletePublisher" nm 1 bs), dbInUse)) ∧
    (∃ nm bs, seriesName dbInUse 1 = .ok nm ∧ seriesBooks dbInUse 1 = .ok bs ∧ bs ≠ [] ∧
      deleteSeries dbInUse 1 = (.error (.seriesInUse "deleteSeries" nm 1 bs), dbInUse)) :=
  ⟨(c3_delete_referenced_entity dbInUse 1).1 (1, "A") (by decide) rfl
      ⟨1, Or.inl (by decide)⟩,
   (c3_delete_referenced_entity dbInUse 1).2.1 (1, "P") (by decide) rfl
      ⟨{ book_id := 1, title := "T", subtitle := none, year := 2000,
         edition := none, publisher_id := 1, isbn := "i", series_id := some 1,
         status := "Owned", purchased_date := none }, by decide, rfl⟩,
   (c3_delete_referenced_entity dbInUse 1).2.2 (1, "S") (by decide) rfl
      ⟨{ book_id := 1, title := "T", subtitle := none, year := 2000,
         edition := none, publisher_id := 1, isbn := "i", series_id := some 1,
         status := "Owned", purchased_date := none }, by decide, rfl⟩⟩

/-! ## C4: duplicate detection on creation -/

/-- C4: when a stored book shares the candidate's title and has the
candidate's first-listed author among its authors (or its first-listed
editor among its editors), addBook fails with the duplicate-book error; the
id it carries is the id of a stored book genuinely matching the heuristic
(so never the candidate's own id when that id is not a stored match), and
the whole store is returned unchanged. -/
theorem c4_duplicate_book_rejected (db : DB) (b : Book)
    (bk : BookRow) (pr : Nat × String)
    (hbk : bk ∈ db.books) (htitle : bk.title = b.title) (hperson : pr ∈ db.people)
    (hassoc :
      ((bk.book_id, pr.1) ∈ db.book_author ∧ pr.2 = (nameListFromString b.author).headD "") ∨
      ((bk.book_id, pr.1) ∈ db.book_editor ∧ pr.2 = (nameListFromString b.editor).headD ""))
    (hid0 : ∀ bk2 ∈ db.books, bk2.book_id ≠ 0) :
    ∃ ex, addBook db b = (.error (.duplicateBook ex), db) ∧ ex ≠ 0 ∧
      ∃ bk2, bk2 ∈ db.books ∧ bk2.book_id = ex ∧ bk2.title = b.title ∧
        ((∃ q, q ∈ db.people ∧ (ex, q.1) ∈ db.book_author ∧
            q.2 = (nameListFromString b.author).headD "") ∨
         (∃ q, q ∈ db.people ∧ (ex, q.1) ∈ db.book_editor ∧
            q.2 = (nameListFromString b.editor).headD "")) := by
  have hne : (((db.book_author.filter (fun ba =>
      db.books.any (fun x => x.book_id == ba.1 && x.title == b.title) &&
      db.people.any (fun p => p.1 == ba.2 && p.2 == (nameListFromString b.author).headD ""))).map
        (fun ba => ba.1)) ++
      ((db.book_editor.filter (fun be =>
      db.books.any (fun x => x.book_id == be.1 && x.title == b.title) &&
      db.people.any (fun p => p.1 == be.2 && p.2 == (nameListFromString b.editor).headD ""))).map
        (fun be => be.1))) ≠ [] := by
    rcases hassoc with ⟨hba, hnm⟩ | ⟨hbe, hnm⟩
    · have hmem : bk.book_id ∈ (db.book_author.filter (fun ba =>
          db.books.any (fun x => x.book_id == ba.1 && x.title == b.title) &&
          db.people.any (fun p => p.1 == ba.2 &&
            p.2 == (nameListFromString b.author).headD ""))).map (fun ba => ba.1) := by
        refine List.mem_map.mpr ⟨(bk.book_id, pr.1), List.mem_filter.mpr ⟨hba, ?_⟩, rfl⟩
        simp only [Bool.and_eq_true, List.any_eq_true]
        exact ⟨⟨bk, hbk, by simp [htitle]⟩, ⟨pr, hperson, by simp [hnm]⟩⟩
      intro hnil
      rw [List.append_eq_nil] at hnil
      rw [hnil.1] at hmem
      exact absurd hmem (List.not_mem_nil _)
    · have hmem : bk.book_id ∈ (db.book_editor.filter (fun be =>
          db.books.any (fun x => x.book_id == be.1 && x.title == b.title) &&
          db.people.any (fun p => p.1 == be.2 &&
            p.2 == (nameListFromString b.editor).headD ""))).map (fun be => be.1) := by
        refine List.mem_map.mpr ⟨(bk.book_id, pr.1), List.mem_filter.mpr ⟨hbe, ?_⟩, rfl⟩
        simp only [Bool.and_eq_true, List.any_eq_true]
        exact ⟨⟨bk, hbk, by simp [htitle]⟩, ⟨pr, hperson, by simp [hnm]⟩⟩
      intro hnil
      rw [List.append_eq_nil] at hnil
      rw [hnil.2] at hmem
      exact absurd hmem (List.not_mem_nil _)
  have hu := sqlUnion_ne_nil _ _ hne
  obtain ⟨ex, rest, hcons⟩ := List.exists_cons_of_ne_nil hu
  have hexmem := List.mem_cons_self ex rest
  rw [← hcons] at hexmem
  have hexin := sqlUnion_mem _ _ ex hexmem
  rw [List.mem_append] at hexin
  have hcheck : checkBookInDb db b = .ok ex := by
    simp only [checkBookInDb, hcons]
  have hsound : ∃ bk2, bk2 ∈ db.books ∧ bk2.book_id = ex ∧ bk2.title = b.title ∧
      ((∃ q, q ∈ db.people ∧ (ex, q.1) ∈ db.book_author ∧
          q.2 = (nameListFromString b.author).headD "") ∨
       (∃ q, q ∈ db.people ∧ (ex, q.1) ∈ db.book_editor ∧
          q.2 = (nameListFromString b.editor).headD "")) := by
    rcases hexin with hexa | hexe
    · obtain ⟨ba, hba, hbafst⟩ := List.mem_map.mp hexa
      obtain ⟨hbamem, hbapred⟩ := List.mem_filter.mp hba
      simp only [Bool.and_eq_true, List.any_eq_true, beq_iff_eq] at hbapred
      obtain ⟨⟨bk2, hbk2, hbk2id, hbk2t⟩, ⟨q, hq, hqid, hqnm⟩⟩ := hbapred
      refine ⟨bk2, hbk2, by rw [hbk2id, hbafst], hbk2t, Or.inl ⟨q, hq, ?_, hqnm⟩⟩
      have : ba = (ex, q.1) := by
        rcases ba with ⟨ba1, ba2⟩
        simp only at hbafst hqid
        rw [hbafst, hqid]
      rw [← this]
      exact hbamem
    · obtain ⟨be, hbe, hbefst⟩ := List.mem_map.mp hexe
      obtain ⟨hbemem, hbepred⟩ := List.mem_filter.mp hbe
      simp only [Bool.and_eq_true, List.any_eq_true, beq_iff_eq] at hbepred
      obtain ⟨⟨bk2, hbk2, hbk2id, hbk2t⟩, ⟨q, hq, hqid, hqnm⟩⟩ := hbepred
      refine ⟨bk2, hbk2, by rw [hbk2id, hbefst], hbk2t, Or.inr ⟨q, hq, ?_, hqnm⟩⟩
      have : be = (ex, q.1) := by
        rcases be with ⟨be1, be2⟩
        simp only at hbefst hqid
        rw [hbefst, hqid]
      rw [← this]
      exact hbemem
  have hsound2 := hsound
  obtain ⟨bk2, hbk2, hbk2id, _, _⟩ := hsound2
  have hex0 : ex ≠ 0 := hbk2id ▸ hid0 bk2 hbk2
  refine ⟨ex, ?_, hex0, hsound⟩
  simp only [addBook, hcheck]
  have : (ex != 0) = true := by simpa [bne_iff_ne] using hex0
  simp [this]

/-- A candidate duplicating the stored book of dbInUse: same title "T",
first author "A", its own id 999. -/
def bCandidate : Book :=
  { id := 999, author := "A and Q", editor := "", title := "T", subtitle := "",
    year := 0, edition := 0, publisher := "", isbn := "", series := "",
    status := "W", purchased := PurchasedDate.mk 0 0 0 }

/-- C4 witness on dbInUse: the candidate (id 999) is rejected with the
stored book's id and no write happens. -/
theorem c4_duplicate_book_witness :
    ∃ ex, addBook dbInUse bCandidate = (.error (.duplicateBook ex), dbInUse) ∧ ex ≠ 0 ∧
      ∃ bk2, bk2 ∈ dbInUse.books ∧ bk2.book_id = ex ∧ bk2.title = bCandidate.title ∧
        ((∃ q, q ∈ dbInUse.people ∧ (ex, q.1) ∈ dbInUse.book_author ∧
            q.2 = (nameListFromString bCandidate.author).headD "") ∨
         (∃ q, q ∈ dbInUse.people ∧ (ex, q.1) ∈ dbInUse.book_editor ∧
            q.2 = (nameListFromString bCandidate.editor).headD "")) :=
  c4_duplicate_book_rejected dbInUse bCandidate
    { book_id := 1, title := "T", subtitle := none, year := 2000,
      edition := none, publisher_id := 1, isbn := "i", series_id := some 1,
      status := "Owned", purchased_date := none }
    (1, "A") (by decide) rfl (by decide) (Or.inl (by decide)) (by decide)

/-! ## Which fields each helper can touch -/

theorem personId_shape (db : DB) (nm : String) :
    ∃ ppl, (personId db nm).2 = { db with people := ppl } := by
  unfold personId
  split
  · exact ⟨db.people, rfl⟩
  · split
    · exact ⟨db.people, rfl⟩
    · exact ⟨_, rfl⟩

theorem publisherId_shape (db : DB) (nm : String) :
    ∃ pubs, (publisherId db nm).2 = { db with publishers := pubs } := by
  unfold publisherId
  split
  · exact ⟨db.publishers, rfl⟩
  · split
    · exact ⟨db.publishers, rfl⟩
    · exact ⟨_, rfl⟩

theorem seriesId_shape (db : DB) (nm : String) :
    ∃ srs, (seriesId db nm).2 = { db with series := srs } := by
  unfold seriesId
  split
  · exact ⟨db.series, rfl⟩
  · split
    · exact ⟨db.series, rfl⟩
    · exact ⟨_, rfl⟩

theorem resolveSeriesOpt_shape (db : DB) (nm : String) :
    ∃ srs, (resolveSeriesOpt db nm).2 = { db with series := srs } := by
  unfold resolveSeriesOpt
  split
  · exact ⟨db.series, rfl⟩
  · obtain ⟨srs, hs⟩ := seriesId_shape db nm
    rcases hres : seriesId db nm with ⟨r, db1⟩
    have hdb1 : db1 = { db with series := srs } := by rw [hres] at hs; exact hs
    cases r <;> simp only [hres] <;> exact ⟨srs, hdb1⟩

theorem resolvePersonList_shape (l : List String) :
    ∀ db : DB, ∃ ppl, (resolvePersonList db l).2 = { db with people := ppl } := by
  induction l with
  | nil => intro db; exact ⟨db.people, rfl⟩
  | cons n ns ih =>
    intro db
    obtain ⟨p1, hp1⟩ := personId_shape db n
    rcases hres : personId db n with ⟨r1, db1⟩
    rw [hres] at hp1
    subst hp1
    cases r1 with
    | error e => exact ⟨p1, by simp only [resolvePersonList, hres]⟩
    | ok pid =>
      obtain ⟨p2, hp2⟩ := ih { db with people := p1 }
      rcases hres2 : resolvePersonList { db with people := p1 } ns with ⟨r2, db2⟩
      rw [hres2] at hp2
      subst hp2
      cases r2 with
      | error e => exact ⟨p2, by simp only [resolvePersonList, hres, hres2]⟩
      | ok ids => exact ⟨p2, by simp only [resolvePersonList, hres, hres2]⟩

theorem insertBookAuthor_shape (db : DB) (bid aid : Nat) :
    ∃ ba, (insertBookAuthor db bid aid).2 = { db with book_author := ba } := by
  unfold insertBookAuthor
  split
  · exact ⟨db.book_author, rfl⟩
  · exact ⟨_, rfl⟩

theorem insertBookEditor_shape (db : DB) (bid eid : Nat) :
    ∃ be, (insertBookEditor db bid eid).2 = { db with book_editor := be } := by
  unfold insertBookEditor
  split
  · exact ⟨db.book_editor, rfl⟩
  · exact ⟨_, rfl⟩

theorem insertBookAuthorList_shape (l : List Nat) :
    ∀ (db : DB) (bid : Nat),
      ∃ ba, (insertBookAuthorList db bid l).2 = { db with book_author := ba } := by
  induction l with
  | nil => intro db bid; exact ⟨db.book_author, rfl⟩
  | cons pid pids ih =>
    intro db bid
    obtain ⟨b1, hb1⟩ := insertBookAuthor_shape db bid pid
    rcases hres : insertBookAuthor db bid pid with ⟨r1, db1⟩
    rw [hres] at hb1
    subst hb1
    cases r1 with
    | error e => exact ⟨b1, by simp only [insertBookAuthorList, hres]⟩
    | ok u =>
      obtain ⟨b2, hb2⟩ := ih { db with book_author := b1 } bid
      rcases hres2 : insertBookAuthorList { db with book_author := b1 } bid pids with ⟨r2, db2⟩
      rw [hres2] at hb2
      subst hb2
      exact ⟨b2, by simp only [insertBookAuthorList, hres, hres2]⟩

theorem insertBookEditorList_shape (l : List Nat) :
    ∀ (db : DB) (bid : Nat),
      ∃ be, (insertBookEditorList db bid l).2 = { db with book_editor := be } := by
  induction l with
  | nil => intro db bid; exact ⟨db.book_editor, rfl⟩
  | cons pid pids ih =>
    intro db bid
    obtain ⟨b1, hb1⟩ := insertBookEditor_shape db bid pid
    rcases hres : insertBookEditor db bid pid with ⟨r1, db1⟩
    rw [hres] at hb1
    subst hb1
    cases r1 with
    | error e => exact ⟨b1, by simp only [insertBookEditorList, hres]⟩
    | ok u =>
      obtain ⟨b2, hb2⟩ := ih { db with book_editor := b1 } bid
      rcases hres2 : insertBookEditorList { db with book_editor := b1 } bid pids with ⟨r2, db2⟩
      rw [hres2] at hb2
      subst hb2
      exact ⟨b2, by simp only [insertBookEditorList, hres, hres2]⟩

/-! ## C1: what addBook leaves behind on failure -/

/-- C1 (amended): on every failing addBook call the books, book_author and
book_editor relations are exactly as before the call (the book-row insert
and the association inserts sit inside the transaction and are rolled
back).  The pre-call state is however not restored in full: person,
publisher and series rows created by the resolution step before the
transaction remain (see the counterexample). -/
theorem c1_addBook_rollback_fields (db : DB) (b : Book) (e : DbErr) (db2 : DB)
    (h : addBook db b = (.error e, db2)) :
    db2.books = db.books ∧ db2.book_author = db.book_author ∧
    db2.book_editor = db.book_editor := by
  unfold addBook at h
  rcases hchk : checkBookInDb db b with e0 | dupId
  · simp only [hchk] at h
    rw [Prod.mk.injEq] at h
    rw [← h.2]
    exact ⟨rfl, rfl, rfl⟩
  · simp only [hchk] at h
    by_cases hdup : (dupId != 0) = true
    · simp only [hdup, if_true] at h
      rw [Prod.mk.injEq] at h
      rw [← h.2]
      exact ⟨rfl, rfl, rfl⟩
    · rw [Bool.not_eq_true] at hdup
      simp only [hdup, Bool.false_eq_true, if_false] at h
      obtain ⟨pA, hpA⟩ := resolvePersonList_shape (nameListFromString b.author) db
      rcases hra : resolvePersonList db (nameListFromString b.author) with ⟨r1, dbA⟩
      rw [hra] at hpA
      have hdbA : dbA = { db with people := pA } := hpA
      have hA1 : dbA.books = db.books := by rw [hdbA]
      have hA2 : dbA.book_author = db.book_author := by rw [hdbA]
      have hA3 : dbA.book_editor = db.book_editor := by rw [hdbA]
      clear hpA hdbA
      simp only [hra] at h
      cases r1 with
      | error e1 =>
        rw [Prod.mk.injEq] at h
        rw [← h.2]
        exact ⟨hA1, hA2, hA3⟩
      | ok authorIds =>
        obtain ⟨pE, hpE⟩ := resolvePersonList_shape (nameListFromString b.editor) dbA
        rcases hre : resolvePersonList dbA (nameListFromString b.editor) with ⟨r2, dbB⟩
        rw [hre] at hpE
        have hdbB : dbB = { dbA with people := pE } := hpE
        have hB1 : dbB.books = db.books := by rw [hdbB]; exact hA1
        have hB2 : dbB.book_author = db.book_author := by rw [hdbB]; exact hA2
        have hB3 : dbB.book_editor = db.book_editor := by rw [hdbB]; exact hA3
        clear hpE hdbB
        simp only [hre] at h
        cases r2 with
        | error e2 =>
          rw [Prod.mk.injEq] at h
          rw [← h.2]
          exact ⟨hB1, hB2, hB3⟩
        | ok editorIds =>
          obtain ⟨pubs, hpp⟩ := publisherId_shape dbB b.publisher
          rcases hrp : publisherId dbB b.publisher with ⟨r3, dbC⟩
          rw [hrp] at hpp
          have hdbC : dbC = { dbB with publishers := pubs } := hpp
          have hC1 : dbC.books = db.books := by rw [hdbC]; exact hB1
          have hC2 : dbC.book_author = db.book_author := by rw [hdbC]; exact hB2
          have hC3 : dbC.book_editor = db.book_editor := by rw [hdbC]; exact hB3
          clear hpp hdbC
          simp only [hrp] at h
          cases r3 with
          | error e3 =>
            rw [Prod.mk.injEq] at h
            rw [← h.2]
            exact ⟨hC1, hC2, hC3⟩
          | ok pubId =>
            obtain ⟨srs, hps⟩ := resolveSeriesOpt_shape dbC b.series
            rcases hrs : resolveSeriesOpt dbC b.series with ⟨r4, dbD⟩
            rw [hrs] at hps
            have hdbD : dbD = { dbC with series := srs } := hps
            have hD1 : dbD.books = db.books := by rw [hdbD]; exact hC1
            have hD2 : dbD.book_author = db.book_author := by rw [hdbD]; exact hC2
            have hD3 : dbD.book_editor = db.book_editor := by rw [hdbD]; exact hC3
            clear hps hdbD
            simp only [hrs] at h
            cases r4 with
            | error e4 =>
              rw [Prod.mk.injEq] at h
              rw [← h.2]
              exact ⟨hD1, hD2, hD3⟩
            | ok serId =>
              dsimp only at h
              split at h
              · rw [Prod.mk.injEq] at h
                rw [← h.2]
                exact ⟨hD1, hD2, hD3⟩
              · split at h
                · rw [Prod.mk.injEq] at h
                  rw [← h.2]
                  exact ⟨hD1, hD2, hD3⟩
                · simp at h

/-- A candidate book naming the same author twice, so that the second
book_author insert violates the composite primary key inside the
transaction. -/
def bTwiceAuthor : Book :=
  { id := 0, author := "A and A", editor := "", title := "T", subtitle := "",
    year := 2000, edition := 0, publisher := "P", isbn := "", series := "",
    status := "Owned", purchased := PurchasedDate.mk 0 0 0 }

/-- C1 counterexample: on the empty store, addBook with a duplicated author
name fails during the association inserts; the book row and association
rows are rolled back, but the person and publisher rows created by the
pre-transaction resolution step remain visible, so the store is not in its
pre-call state. -/
theorem c1_addBook_not_pre_call_state :
    isErr (addBook dbEmpty bTwiceAuthor).1 = true ∧
    (addBook dbEmpty bTwiceAuthor).2 ≠ dbEmpty ∧
    (addBook dbEmpty bTwiceAuthor).2.people = [(1, "A")] ∧
    (addBook dbEmpty bTwiceAuthor).2.publishers = [(1, "P")] ∧
    (addBook dbEmpty bTwiceAuthor).2.books = [] ∧
    (addBook dbEmpty bTwiceAuthor).2.book_author = [] := by decide

/-- C1 witness for the amended theorem, at the same failing call. -/
theorem c1_addBook_rollback_witness :
    (addBook dbEmpty bTwiceAuthor).2.books = dbEmpty.books ∧
    (addBook dbEmpty bTwiceAuthor).2.book_author = dbEmpty.book_author ∧
    (addBook dbEmpty bTwiceAuthor).2.book_editor = dbEmpty.book_editor := by
  rcases hres : addBook dbEmpty bTwiceAuthor with ⟨r, db2⟩
  cases r with
  | ok v =>
    have hne : isErr (addBook dbEmpty bTwiceAuthor).1 = true := by decide
    rw [hres] at hne
    exact absurd hne (by simp [isErr])
  | error e =>
    exact c1_addBook_rollback_fields dbEmpty bTwiceAuthor e db2 hres

/-! ## C9: absent markers instead of zero sentinels -/

theorem updateBookEdition_state (db : DB) (id : Nat) (edition : Int) :
    (updateBookEdition db id edition).2 =
      { db with books := db.books.map (fun bk =>
          if bk.book_id == id then
            { bk with edition := if edition = 0 then none else some edition } else bk) } := by
  unfold updateBookEdition
  split <;> (dsimp only; split <;> first | rfl | (split <;> rfl))

theorem updateBookSubtitle_state (db : DB) (id : Nat) (subtitle : String) :
    (updateBookSubtitle db id subtitle).2 =
      { db with books := db.books.map (fun bk =>
          if bk.book_id == id then
            { bk with subtitle := if subtitle.length != 0 then some subtitle else none }
          else bk) } := by
  unfold updateBookSubtitle
  split <;> (dsimp only; split <;> first | rfl | (split <;> rfl))

theorem resolveSeriesOpt_empty (db : DB) : resolveSeriesOpt db "" = (.ok none, db) := rfl

theorem updateNull_counts (db : DB) (id : Nat)
    (h1 : (db.books.filter (fun bk => bk.book_id == id)).length = 1) :
    ((updateBookEdition db id 0).2.books.filter
        (fun bk => bk.book_id == id && !(bk.edition == none))).length = 0 ∧
    ((updateBookEdition db id 0).2.books.filter
        (fun bk => bk.book_id == id && bk.edition == none)).length = 1 := by
  rw [updateBookEdition_state]
  constructor
  · show (List.filter _ (List.map _ db.books)).length = 0
    rw [List.filter_map, List.length_map]
    rw [List.length_eq_zero, List.filter_eq_nil_iff]
    intro bk _
    by_cases hid : (bk.book_id == id) = true
    · simp [Function.comp, hid]
    · rw [Bool.not_eq_true] at hid
      simp [Function.comp, hid]
  · show (List.filter _ (List.map _ db.books)).length = 1
    rw [List.filter_map, List.length_map]
    rw [List.filter_congr (fun bk _ => ?_)]
    · exact h1
    · show _ = (bk.book_id == id)
      by_cases hid : (bk.book_id == id) = true
      · simp [Function.comp, hid]
      · rw [Bool.not_eq_true] at hid
        simp [Function.comp, hid]

theorem addBook_zero_fields_row (db : DB) (b : Book) (bid : Nat) (db2 : DB)
    (hsub : b.subtitle = "") (hedn : b.edition = 0) (hser : b.series = "")
    (hpd : pdString b.purchased = "") (h : addBook db b = (.ok bid, db2)) :
    ∃ row, row ∈ db2.books ∧ row.book_id = bid ∧ row.subtitle = none ∧
      row.edition = none ∧ row.series_id = none ∧ row.purchased_date = none := by
  unfold addBook at h
  rcases hchk : checkBookInDb db b with e0 | dupId
  · simp only [hchk] at h
    simp at h
  · simp only [hchk] at h
    by_cases hdup : (dupId != 0) = true
    · simp only [hdup, if_true] at h
      simp at h
    · rw [Bool.not_eq_true] at hdup
      simp only [hdup, Bool.false_eq_true, if_false] at h
      rcases hra : resolvePersonList db (nameListFromString b.author) with ⟨r1, dbA⟩
      simp only [hra] at h
      cases r1 with
      | error e1 => simp at h
      | ok aIds =>
        rcases hre : resolvePersonList dbA (nameListFromString b.editor) with ⟨r2, dbB⟩
        simp only [hre] at h
        cases r2 with
        | error e2 => simp at h
        | ok eIds =>
          rcases hrp : publisherId dbB b.publisher with ⟨r3, dbC⟩
          simp only [hrp] at h
          cases r3 with
          | error e3 => simp at h
          | ok pubId =>
            rw [hser] at h
            simp only [resolveSeriesOpt_empty] at h
            rw [hsub, hedn, hpd] at h
            simp only [String.length_empty, eq_self_iff_true, if_true] at h
            split at h
            · simp at h
            · split at h
              · simp at h
              · rename_i x1 a1 tx2 heq1 x2 a2 tx3 heq2
                rw [Prod.mk.injEq] at h
                obtain ⟨hbid, hdb2⟩ := h
                rw [Except.ok.injEq] at hbid
                obtain ⟨ba2, hba2⟩ := insertBookAuthorList_shape aIds
                  { dbC with books := dbC.books ++
                      [{ book_id := nextBookIdOf dbC.books, title := b.title,
                         subtitle := none, year := b.year, edition := none,
                         publisher_id := pubId, isbn := b.isbn, series_id := none,
                         status := b.status, purchased_date := none }] }
                  (nextBookIdOf dbC.books)
                rw [heq1] at hba2
                have hba2a : tx2 = { dbC with
                    books := dbC.books ++
                      [{ book_id := nextBookIdOf dbC.books, title := b.title,
                         subtitle := none, year := b.year, edition := none,
                         publisher_id := pubId, isbn := b.isbn, series_id := none,
                         status := b.status, purchased_date := none }],
                    book_author := ba2 } := hba2
                obtain ⟨be2, hbe2⟩ := insertBookEditorList_shape eIds tx2 (nextBookIdOf dbC.books)
                rw [heq2] at hbe2
                have hbe2a : tx3 = { tx2 with book_editor := be2 } := hbe2
                have h3 : db2.books = dbC.books ++
                    [{ book_id := nextBookIdOf dbC.books, title := b.title,
                       subtitle := none, year := b.year, edition := none,
                       publisher_id := pubId, isbn := b.isbn, series_id := none,
                       status := b.status, purchased_date := none }] := by
                  rw [← hdb2, hbe2a]
                  show tx2.books = _
                  rw [hba2a]
                refine ⟨{ book_id := nextBookIdOf dbC.books, title := b.title,
                          subtitle := none, year := b.year, edition := none,
                          publisher_id := pubId, isbn := b.isbn, series_id := none,
                          status := b.status, purchased_date := none }, ?_, hbid, rfl, rfl, rfl, rfl⟩
                rw [h3]
                exact List.mem_append_right _ (List.mem_singleton_self _)


theorem updateSubtitleNull_counts (db : DB) (id : Nat)
    (h1 : (db.books.filter (fun bk => bk.book_id == id)).length = 1) :
    ((updateBookSubtitle db id "").2.books.filter
        (fun bk => bk.book_id == id && !(bk.subtitle == none))).length = 0 ∧
    ((updateBookSubtitle db id "").2.books.filter
        (fun bk => bk.book_id == id && bk.subtitle == none)).length = 1 := by
  rw [updateBookSubtitle_state]
  constructor
  · show (List.filter _ (List.map _ db.books)).length = 0
    rw [List.filter_map, List.length_map]
    rw [List.length_eq_zero, List.filter_eq_nil_iff]
    intro bk _
    by_cases hid : (bk.book_id == id) = true
    · simp [Function.comp, hid]
    · rw [Bool.not_eq_true] at hid
      simp [Function.comp, hid]
  · show (List.filter _ (List.map _ db.books)).length = 1
    rw [List.filter_map, List.length_map]
    rw [List.filter_congr (fun bk _ => ?_)]
    · exact h1
    · show _ = (bk.book_id == id)
      by_cases hid : (bk.book_id == id) = true
      · simp [Function.comp, hid]
      · rw [Bool.not_eq_true] at hid
        simp [Function.comp, hid]

/-- C9: for an existing book id, setting the edition to 0 (or the subtitle
to "") stores the SQL NULL marker: afterwards the IS NOT NULL query on that
id matches zero rows and the IS NULL query matches exactly one; and a
successful addBook with zero-valued subtitle, edition, series and
purchase date inserts its row with NULL in those four columns. -/
theorem c9_zero_values_persist_null (db : DB) (id : Nat) (b : Book) :
    ((db.books.filter (fun bk => bk.book_id == id)).length = 1 →
      ((updateBookEdition db id 0).2.books.filter
          (fun bk => bk.book_id == id && !(bk.edition == none))).length = 0 ∧
      ((updateBookEdition db id 0).2.books.filter
          (fun bk => bk.book_id == id && bk.edition == none)).length = 1 ∧
      ((updateBookSubtitle db id "").2.books.filter
          (fun bk => bk.book_id == id && !(bk.subtitle == none))).length = 0 ∧
      ((updateBookSubtitle db id "").2.books.filter
          (fun bk => bk.book_id == id && bk.subtitle == none)).length = 1) ∧
    (∀ bid db2, b.subtitle = "" → b.edition = 0 → b.series = "" →
      pdString b.purchased = "" → addBook db b = (.ok bid, db2) →
      ∃ row, row ∈ db2.books ∧ row.book_id = bid ∧ row.subtitle = none ∧
        row.edition = none ∧ row.series_id = none ∧ row.purchased_date = none) := by
  constructor
  · intro h1
    obtain ⟨e0, e1⟩ := updateNull_counts db id h1
    obtain ⟨s0, s1⟩ := updateSubtitleNull_counts db id h1
    exact ⟨e0, e1, s0, s1⟩
  · intro bid db2 hsub hedn hser hpd h
    exact addBook_zero_fields_row db b bid db2 hsub hedn hser hpd h

/-- A book value whose optional fields all carry the zero value. -/
def bZeroFields : Book :=
  { id := 0, author := "W", editor := "", title := "T9", subtitle := "",
    year := 1999, edition := 0, publisher := "P", isbn := "x", series := "",
    status := "Owned", purchased := PurchasedDate.mk 0 0 0 }

/-- C9 witness on dbLoneBook: the IS NULL counts after the two updates, and
the NULL columns of the row inserted for bZeroFields. -/
theorem c9_zero_values_witness :
    (((updateBookEdition dbLoneBook 1 0).2.books.filter
        (fun bk => bk.book_id == 1 && !(bk.edition == none))).length = 0 ∧
     ((updateBookEdition dbLoneBook 1 0).2.books.filter
        (fun bk => bk.book_id == 1 && bk.edition == none)).length = 1 ∧
     ((updateBookSubtitle dbLoneBook 1 "").2.books.filter
        (fun bk => bk.book_id == 1 && !(bk.subtitle == none))).length = 0 ∧
     ((updateBookSubtitle dbLoneBook 1 "").2.books.filter
        (fun bk => bk.book_id == 1 && bk.subtitle == none)).length = 1) ∧
    (∃ bid db2 row, addBook dbLoneBook bZeroFields = (.ok bid, db2) ∧
      row ∈ db2.books ∧ row.book_id = bid ∧ row.subtitle = none ∧
      row.edition = none ∧ row.series_id = none ∧ row.purchased_date = none) := by
  constructor
  · exact (c9_zero_values_persist_null dbLoneBook 1 bZeroFields).1 (by decide)
  · rcases hres : addBook dbLoneBook bZeroFields with ⟨r, db2⟩
    cases r with
    | error e =>
      have hok : isErr (addBook dbLoneBook bZeroFields).1 = false := by decide
      rw [hres] at hok
      simp [isErr] at hok
    | ok v =>
      obtain ⟨row, hmem, hid, hs, he, hsr, hp⟩ :=
        (c9_zero_values_persist_null dbLoneBook 1 bZeroFields).2 v db2 rfl rfl rfl rfl hres
      exact ⟨v, db2, row, rfl, hmem, hid, hs, he, hsr, hp⟩

/-! ## C8: author/editor reconciliation and its read-back -/

theorem updateAuthorAdds_shape (l : List String) :
    ∀ (db : DB) (id : Nat), ∃ ppl ba,
      (updateAuthorAdds db id l).2 = { db with people := ppl, book_author := ba } := by
  induction l with
  | nil => intro db id; exact ⟨db.people, db.book_author, rfl⟩
  | cons a rest ih =>
    intro db id
    obtain ⟨p1, hp1⟩ := personId_shape db a
    rcases hres : personId db a with ⟨r1, db1⟩
    rw [hres] at hp1
    subst hp1
    cases r1 with
    | error e => exact ⟨p1, db.book_author, by simp only [updateAuthorAdds, hres]⟩
    | ok pid =>
      obtain ⟨b1, hb1⟩ := insertBookAuthor_shape { db with people := p1 } id pid
      rcases hres2 : insertBookAuthor { db with people := p1 } id pid with ⟨r2, db2⟩
      rw [hres2] at hb1
      subst hb1
      cases r2 with
      | error e => exact ⟨p1, b1, by simp only [updateAuthorAdds, hres, hres2]⟩
      | ok u =>
        obtain ⟨p2, b2, hrec⟩ := ih { db with people := p1, book_author := b1 } id
        rcases hres3 : updateAuthorAdds { db with people := p1, book_author := b1 } id rest
          with ⟨r3, db3⟩
        rw [hres3] at hrec
        subst hrec
        exact ⟨p2, b2, by simp only [updateAuthorAdds, hres, hres2, hres3]⟩

theorem updateAuthorDeletes_shape (l : List String) :
    ∀ (db : DB) (id : Nat), ∃ ppl ba,
      (updateAuthorDeletes db id l).2 = { db with people := ppl, book_author := ba } := by
  induction l with
  | nil => intro db id; exact ⟨db.people, db.book_author, rfl⟩
  | cons a rest ih =>
    intro db id
    obtain ⟨p1, hp1⟩ := personId_shape db a
    rcases hres : personId db a with ⟨r1, db1⟩
    rw [hres] at hp1
    subst hp1
    cases r1 with
    | error e => exact ⟨p1, db.book_author, by simp only [updateAuthorDeletes, hres]⟩
    | ok pid =>
      obtain ⟨p2, b2, hrec⟩ := ih
        { db with people := p1
                  book_author := db.book_author.filter
                    (fun ba => !(ba.1 == id && ba.2 == pid)) } id
      rcases hres3 : updateAuthorDeletes
        { db with people := p1
                  book_author := db.book_author.filter
                    (fun ba => !(ba.1 == id && ba.2 == pid)) } id rest
        with ⟨r3, db3⟩
      rw [hres3] at hrec
      subst hrec
      exact ⟨p2, b2, by simp only [updateAuthorDeletes, hres, hres3]⟩

theorem updateEditorAdds_shape (l : List String) :
    ∀ (db : DB) (id : Nat), ∃ ppl be,
      (updateEditorAdds db id l).2 = { db with people := ppl, book_editor := be } := by
  induction l with
  | nil => intro db id; exact ⟨db.people, db.book_editor, rfl⟩
  | cons a rest ih =>
    intro db id
    obtain ⟨p1, hp1⟩ := personId_shape db a
    rcases hres : personId db a with ⟨r1, db1⟩
    rw [hres] at hp1
    subst hp1
    cases r1 with
    | error e => exact ⟨p1, db.book_editor, by simp only [updateEditorAdds, hres]⟩
    | ok pid =>
      obtain ⟨b1, hb1⟩ := insertBookEditor_shape { db with people := p1 } id pid
      rcases hres2 : insertBookEditor { db with people := p1 } id pid with ⟨r2, db2⟩
      rw [hres2] at hb1
      subst hb1
      cases r2 with
      | error e => exact ⟨p1, b1, by simp only [updateEditorAdds, hres, hres2]⟩
      | ok u =>
        obtain ⟨p2, b2, hrec⟩ := ih { db with people := p1, book_editor := b1 } id
        rcases hres3 : updateEditorAdds { db with people := p1, book_editor := b1 } id rest
          with ⟨r3, db3⟩
        rw [hres3] at hrec
        subst hrec
        exact ⟨p2, b2, by simp only [updateEditorAdds, hres, hres2, hres3]⟩

theorem updateEditorDeletes_shape (l : List String) :
    ∀ (db : DB) (id : Nat), ∃ ppl be,
      (updateEditorDeletes db id l).2 = { db with people := ppl, book_editor := be } := by
  induction l with
  | nil => intro db id; exact ⟨db.people, db.book_editor, rfl⟩
  | cons a rest ih =>
    intro db id
    obtain ⟨p1, hp1⟩ := personId_shape db a
    rcases hres : personId db a with ⟨r1, db1⟩
    rw [hres] at hp1
    subst hp1
    cases r1 with
    | error e => exact ⟨p1, db.book_editor, by simp only [updateEditorDeletes, hres]⟩
    | ok pid =>
      obtain ⟨p2, b2, hrec⟩ := ih
        { db with people := p1
                  book_editor := db.book_editor.filter
                    (fun be => !(be.1 == id && be.2 == pid)) } id
      rcases hres3 : updateEditorDeletes
        { db with people := p1
                  book_editor := db.book_editor.filter
                    (fun be => !(be.1 == id && be.2 == pid)) } id rest
        with ⟨r3, db3⟩
      rw [hres3] at hrec
      subst hrec
      exact ⟨p2, b2, by simp only [updateEditorDeletes, hres, hres3]⟩

theorem getAuthorsListById_ok_valid (db : DB) (id : Nat) (l : List String)
    (h : getAuthorsListById db id = .ok l) : BookIDValid db id = true := by
  by_cases hv : BookIDValid db id = true
  · exact hv
  · rw [Bool.not_eq_true] at hv
    simp [getAuthorsListById, hv] at h

theorem getEditorsListById_ok_valid (db : DB) (id : Nat) (l : List String)
    (h : getEditorsListById db id = .ok l) : BookIDValid db id = true := by
  by_cases hv : BookIDValid db id = true
  · exact hv
  · rw [Bool.not_eq_true] at hv
    simp [getEditorsListById, hv] at h

/-- C8 (amended): updateBookAuthor and updateBookEditor run all association
additions and removals inside one transaction (every error path returns the
pre-call store) and, on success, return the freshly formatted name list
read back from the post-commit store.  The Go code however performs no
comparison between the read-back and the requested input: a mismatch is
returned as a successful result, not as an error (see the
counterexample). -/
theorem c8_author_update_readback (db : DB) (id : Nat) (s : String) :
    (∀ v db2, updateBookAuthor db id s = (.ok v, db2) →
      ∃ lst, getAuthorsListById db2 id = .ok lst ∧ v = formatNameList lst) ∧
    (∀ e db2, updateBookAuthor db id s = (.error e, db2) → db2 = db) ∧
    (∀ v db2, updateBookEditor db id s = (.ok v, db2) →
      ∃ lst, getEditorsListById db2 id = .ok lst ∧ v = formatNameList lst) ∧
    (∀ e db2, updateBookEditor db id s = (.error e, db2) → db2 = db) := by
  have hauthor : ∀ r db2, updateBookAuthor db id s = (r, db2) →
      ((∃ v lst, r = .ok v ∧ getAuthorsListById db2 id = .ok lst ∧
        v = formatNameList lst) ∨ ((∃ e, r = .error e) ∧ db2 = db)) := by
    intro r db2 h
    unfold updateBookAuthor at h
    rcases hold : getAuthorsListById db id with e0 | old
    · simp only [hold] at h
      rw [Prod.mk.injEq] at h
      exact Or.inr ⟨⟨e0, h.1.symm⟩, h.2.symm⟩
    · simp only [hold] at h
      rcases hadds : updateAuthorAdds db id
          ((nameListFromString s).filter (fun a => !old.contains a)) with ⟨ra, tx1⟩
      simp only [hadds] at h
      cases ra with
      | error e1 =>
        rw [Prod.mk.injEq] at h
        exact Or.inr ⟨⟨e1, h.1.symm⟩, h.2.symm⟩
      | ok u1 =>
        rcases hdels : updateAuthorDeletes tx1 id
            (old.filter (fun a => !(nameListFromString s).contains a)) with ⟨rd, tx2⟩
        simp only [hdels] at h
        cases rd with
        | error e2 =>
          rw [Prod.mk.injEq] at h
          exact Or.inr ⟨⟨e2, h.1.symm⟩, h.2.symm⟩
        | ok u2 =>
          have htx2books : tx2.books = db.books := by
            obtain ⟨p1, b1, h1⟩ := updateAuthorAdds_shape
              ((nameListFromString s).filter (fun a => !old.contains a)) db id
            rw [hadds] at h1
            have h1a : tx1 = { db with people := p1, book_author := b1 } := h1
            obtain ⟨p2, b2, h2⟩ := updateAuthorDeletes_shape
              (old.filter (fun a => !(nameListFromString s).contains a)) tx1 id
            rw [hdels] at h2
            have h2a : tx2 = { tx1 with people := p2, book_author := b2 } := h2
            rw [h2a, h1a]
          have hvalid2 : BookIDValid tx2 id = true := by
            have hv := getAuthorsListById_ok_valid db id old hold
            unfold BookIDValid at hv ⊢
            rw [htx2books]
            exact hv
          rcases hread : getAuthorsListById tx2 id with e3 | updated
          · rw [getAuthorsListById, hvalid2] at hread
            simp at hread
          · simp only [hread] at h
            rw [Prod.mk.injEq] at h
            refine Or.inl ⟨formatNameList updated, updated, h.1.symm, ?_, rfl⟩
            rw [← h.2]
            exact hread
  have heditor : ∀ r db2, updateBookEditor db id s = (r, db2) →
      ((∃ v lst, r = .ok v ∧ getEditorsListById db2 id = .ok lst ∧
        v = formatNameList lst) ∨ ((∃ e, r = .error e) ∧ db2 = db)) := by
    intro r db2 h
    unfold updateBookEditor at h
    rcases hold : getEditorsListById db id with e0 | old
    · simp only [hold] at h
      rw [Prod.mk.injEq] at h
      exact Or.inr ⟨⟨e0, h.1.symm⟩, h.2.symm⟩
    · simp only [hold] at h
      rcases hadds : updateEditorAdds db id
          ((nameListFromString s).filter (fun a => !old.contains a)) with ⟨ra, tx1⟩
      simp only [hadds] at h
      cases ra with
      | error e1 =>
        rw [Prod.mk.injEq] at h
        exact Or.inr ⟨⟨e1, h.1.symm⟩, h.2.symm⟩
      | ok u1 =>
        rcases hdels : updateEditorDeletes tx1 id
            (old.filter (fun a => !(nameListFromString s).contains a)) with ⟨rd, tx2⟩
        simp only [hdels] at h
        cases rd with
        | error e2 =>
          rw [Prod.mk.injEq] at h
          exact Or.inr ⟨⟨e2, h.1.symm⟩, h.2.symm⟩
        | ok u2 =>
          have htx2books : tx2.books = db.books := by
            obtain ⟨p1, b1, h1⟩ := updateEditorAdds_shape
              ((nameListFromString s).filter (fun a => !old.contains a)) db id
            rw [hadds] at h1
            have h1a : tx1 = { db with people := p1, book_editor := b1 } := h1
            obtain ⟨p2, b2, h2⟩ := updateEditorDeletes_shape
              (old.filter (fun a => !(nameListFromString s).contains a)) tx1 id
            rw [hdels] at h2
            have h2a : tx2 = { tx1 with people := p2, book_editor := b2 } := h2
            rw [h2a, h1a]
          have hvalid2 : BookIDValid tx2 id = true := by
            have hv := getEditorsListById_ok_valid db id old hold
            unfold BookIDValid at hv ⊢
            rw [htx2books]
            exact hv
          rcases hread : getEditorsListById tx2 id with e3 | updated
          · rw [getEditorsListById, hvalid2] at hread
            simp at hread
          · simp only [hread] at h
            rw [Prod.mk.injEq] at h
            refine Or.inl ⟨formatNameList updated, updated, h.1.symm, ?_, rfl⟩
            rw [← h.2]
            exact hread
  refine ⟨?_, ?_, ?_, ?_⟩
  · intro v db2 h
    rcases hauthor (.ok v) db2 h with ⟨v2, lst, hveq, hget, hfmt⟩ | ⟨⟨e, he⟩, _⟩
    · rw [Except.ok.injEq] at hveq
      exact ⟨lst, hget, by rw [hveq]; exact hfmt⟩
    · cases he
  · intro e db2 h
    rcases hauthor (.error e) db2 h with ⟨v2, lst, hveq, _, _⟩ | ⟨_, hdb⟩
    · cases hveq
    · exact hdb
  · intro v db2 h
    rcases heditor (.ok v) db2 h with ⟨v2, lst, hveq, hget, hfmt⟩ | ⟨⟨e, he⟩, _⟩
    · rw [Except.ok.injEq] at hveq
      exact ⟨lst, hget, by rw [hveq]; exact hfmt⟩
    · cases he
  · intro e db2 h
    rcases heditor (.error e) db2 h with ⟨v2, lst, hveq, _, _⟩ | ⟨_, hdb⟩
    · cases hveq
    · exact hdb


/-- One book (id 1) whose single author is person 1, "A". -/
def dbAuthorA : DB :=
  { people := [(1, "A")], publishers := [(1, "P")], series := [],
    books := [{ book_id := 1, title := "T", subtitle := none, year := 2000,
                edition := none, publisher_id := 1, isbn := "i", series_id := none,
                status := "Owned", purchased_date := none }],
    book_author := [(1, 1)], book_editor := [] }

/-- C8 counterexample: requesting the author list "A and A" on a book whose
author is already "A" is a no-op diff; the call succeeds and returns the
read-back "A", which differs from the requested input, with no error
raised. -/
theorem c8_mismatch_returned_as_success :
    updateBookAuthor dbAuthorA 1 "A and A" = (.ok "A", dbAuthorA) ∧
    ("A" : String) ≠ "A and A" := ⟨by decide, by decide⟩

/-- C8 witness: a successful update returns exactly the formatted read-back
list of the post-commit store. -/
theorem c8_author_update_witness :
    ∃ v db2 lst, updateBookAuthor dbAuthorA 1 "B" = (.ok v, db2) ∧
      getAuthorsListById db2 1 = .ok lst ∧ v = formatNameList lst := by
  rcases hres : updateBookAuthor dbAuthorA 1 "B" with ⟨r, db2⟩
  cases r with
  | error e =>
    have hok : isErr (updateBookAuthor dbAuthorA 1 "B").1 = false := by decide
    rw [hres] at hok
    simp [isErr] at hok
  | ok v =>
    obtain ⟨lst, hget, hfmt⟩ :=
      (c8_author_update_readback dbAuthorA 1 "B").1 v db2 hres
    exact ⟨v, db2, lst, rfl, hget, hfmt⟩

/-! ## C2: deleteBook and the orphan cascade -/

theorem nameListFromString_single (s : String) (h1 : s.data ≠ [])
    (h2 : occursIn sepAnd s.data = false) : nameListFromString s = [s] := by
  show (nameListFromStringCL s.data).map String.mk = [s]
  have hr := nameList_roundtrip_single s.data h1 h2
  rw [show formatNameListCL [s.data] = s.data from rfl] at hr
  rw [hr]
  simp [string_mk_data]

theorem formatNameList_single (s : String) : formatNameList [s] = s := rfl

theorem c2_scenario_one (Pp : DateParsers) (A E P S ttl isb st : String)
    (aid eid pid sid bid : Nat) (yr : Int)
    (hA1 : A.data ≠ []) (hA2 : occursIn sepAnd A.data = false)
    (hE1 : E.data ≠ []) (hE2 : occursIn sepAnd E.data = false)
    (hP : P.data ≠ []) (hS : S.data ≠ []) (hae : aid ≠ eid) :
    deleteBook Pp
      { people := [(aid, A), (eid, E)], publishers := [(pid, P)], series := [(sid, S)],
        books := [{ book_id := bid, title := ttl, subtitle := none, year := yr,
                    edition := none, publisher_id := pid, isbn := isb,
                    series_id := some sid, status := st, purchased_date := none }],
        book_author := [(bid, aid)], book_editor := [(bid, eid)] } bid =
      (.ok (), dbEmpty) := by
  have haeb : (aid == eid) = false := by simp [hae]
  have hlen0 : ∀ t : String, t.data ≠ [] → ¬ (t.length = 0) := by
    intro t ht h0
    rcases t with ⟨td⟩
    have h1 : td.length = 0 := h0
    rw [List.length_eq_zero] at h1
    exact ht h1
  have hAlen : ¬ (A.length = 0) := hlen0 A hA1
  have hElen : ¬ (E.length = 0) := hlen0 E hE1
  have hPlen : ¬ (P.length = 0) := hlen0 P hP
  have hSlen : ¬ (S.length = 0) := hlen0 S hS
  have hSne : (S != "") = true := by
    rw [bne_iff_ne]
    intro hcon
    rw [hcon] at hS
    exact hS rfl
  have hbook : getBookById Pp
      { people := [(aid, A), (eid, E)], publishers := [(pid, P)], series := [(sid, S)],
        books := [{ book_id := bid, title := ttl, subtitle := none, year := yr,
                    edition := none, publisher_id := pid, isbn := isb,
                    series_id := some sid, status := st, purchased_date := none }],
        book_author := [(bid, aid)], book_editor := [(bid, eid)] } bid =
      .ok { id := bid, author := A, editor := E, title := ttl, subtitle := "",
            year := yr, edition := 0, publisher := P, isbn := isb, series := S,
            status := st, purchased := PurchasedDate.mk 0 0 0 } := by
    simp [getBookById, BookIDValid, getAuthorsListById, getEditorsListById, haeb,
      formatNameList_single]
  rw [deleteBook, hbook]
  simp only [nameListFromString_single A hA1 hA2, nameListFromString_single E hE1 hE2]
  simp [deleteBookPeople, personId, deletePerson, booksByPersonId, personName,
    publisherId, deletePublisher, publisherBooks, publisherName,
    seriesId, deleteSeries, seriesBooks, seriesName, deleteBookSeriesStep,
    sqlUnion, dedupAcc, isPersonInUseErr, isPublisherInUseErr, isSeriesInUseErr,
    haeb, hae, Ne.symm hae, hAlen, hElen, hPlen, hSlen, hSne, dbEmpty, nextIdOf]

theorem c2_scenario_two (Pp : DateParsers) (A E P S A2 ttl ttl2 isb isb2 st st2 : String)
    (aid eid pid sid bid a2 bid2 : Nat) (yr yr2 : Int)
    (hA1 : A.data ≠ []) (hA2 : occursIn sepAnd A.data = false)
    (hE1 : E.data ≠ []) (hE2 : occursIn sepAnd E.data = false)
    (hP : P.data ≠ []) (hS : S.data ≠ []) (hae : aid ≠ eid)
    (hb2 : bid2 ≠ bid) (ha2a : a2 ≠ aid) (ha2e : a2 ≠ eid) :
    deleteBook Pp
      { people := [(aid, A), (eid, E), (a2, A2)], publishers := [(pid, P)],
        series := [(sid, S)],
        books := [{ book_id := bid, title := ttl, subtitle := none, year := yr,
                    edition := none, publisher_id := pid, isbn := isb,
                    series_id := some sid, status := st, purchased_date := none },
                  { book_id := bid2, title := ttl2, subtitle := none, year := yr2,
                    edition := none, publisher_id := pid, isbn := isb2,
                    series_id := none, status := st2, purchased_date := none }],
        book_author := [(bid, aid), (bid2, a2)], book_editor := [(bid, eid)] } bid =
      (.ok (),
       { people := [(a2, A2)], publishers := [(pid, P)], series := [],
         books := [{ book_id := bid2, title := ttl2, subtitle := none, year := yr2,
                     edition := none, publisher_id := pid, isbn := isb2,
                     series_id := none, status := st2, purchased_date := none }],
         book_author := [(bid2, a2)], book_editor := [] }) := by
  have haeb : (aid == eid) = false := by simp [hae]
  have hlen0 : ∀ t : String, t.data ≠ [] → ¬ (t.length = 0) := by
    intro t ht h0
    rcases t with ⟨td⟩
    have h1 : td.length = 0 := h0
    rw [List.length_eq_zero] at h1
    exact ht h1
  have hAlen : ¬ (A.length = 0) := hlen0 A hA1
  have hElen : ¬ (E.length = 0) := hlen0 E hE1
  have hPlen : ¬ (P.length = 0) := hlen0 P hP
  have hSlen : ¬ (S.length = 0) := hlen0 S hS
  have hSne : (S != "") = true := by
    rw [bne_iff_ne]
    intro hcon
    rw [hcon] at hS
    exact hS rfl
  have hbook : getBookById Pp
      { people := [(aid, A), (eid, E), (a2, A2)], publishers := [(pid, P)],
        series := [(sid, S)],
        books := [{ book_id := bid, title := ttl, subtitle := none, year := yr,
                    edition := none, publisher_id := pid, isbn := isb,
                    series_id := some sid, status := st, purchased_date := none },
                  { book_id := bid2, title := ttl2, subtitle := none, year := yr2,
                    edition := none, publisher_id := pid, isbn := isb2,
                    series_id := none, status := st2, purchased_date := none }],
        book_author := [(bid, aid), (bid2, a2)], book_editor := [(bid, eid)] } bid =
      .ok { id := bid, author := A, editor := E, title := ttl, subtitle := "",
            year := yr, edition := 0, publisher := P, isbn := isb, series := S,
            status := st, purchased := PurchasedDate.mk 0 0 0 } := by
    simp [getBookById, BookIDValid, getAuthorsListById, getEditorsListById, haeb,
      hb2, ha2a, ha2e, formatNameList_single]
  rw [deleteBook, hbook]
  simp only [nameListFromString_single A hA1 hA2, nameListFromString_single E hE1 hE2]
  simp [deleteBookPeople, personId, deletePerson, booksByPersonId, personName,
    publisherId, deletePublisher, publisherBooks, publisherName,
    seriesId, deleteSeries, seriesBooks, seriesName, deleteBookSeriesStep,
    sqlUnion, dedupAcc, isPersonInUseErr, isPublisherInUseErr, isSeriesInUseErr,
    haeb, hae, Ne.symm hae, hb2, Ne.symm hb2, ha2a, Ne.symm ha2a, ha2e, Ne.symm ha2e,
    hAlen, hElen, hPlen, hSlen, hSne, nextIdOf]


/-- C2 (amended): the orphan cascade of deleteBook, for author and editor
names that survive the format/parse round trip (non-empty, not containing
" and ").  First conjunct: a book that is the sole book of its author, its
editor, its publisher and its series leaves a completely empty store after
deleteBook.  Second conjunct: with a second book sharing the publisher,
deleteBook removes the first book, its author, editor and series, but the
publisher row (still in use) and the second book and its author remain. -/
theorem c2_deleteBook_orphan_cascade :
    (∀ (Pp : DateParsers) (A E P S ttl isb st : String)
       (aid eid pid sid bid : Nat) (yr : Int),
      A.data ≠ [] → occursIn sepAnd A.data = false →
      E.data ≠ [] → occursIn sepAnd E.data = false →
      P.data ≠ [] → S.data ≠ [] → aid ≠ eid →
      deleteBook Pp
        { people := [(aid, A), (eid, E)], publishers := [(pid, P)],
          series := [(sid, S)],
          books := [{ book_id := bid, title := ttl, subtitle := none, year := yr,
                      edition := none, publisher_id := pid, isbn := isb,
                      series_id := some sid, status := st, purchased_date := none }],
          book_author := [(bid, aid)], book_editor := [(bid, eid)] } bid =
        (.ok (), dbEmpty)) ∧
    (∀ (Pp : DateParsers) (A E P S A2 ttl ttl2 isb isb2 st st2 : String)
       (aid eid pid sid bid a2 bid2 : Nat) (yr yr2 : Int),
      A.data ≠ [] → occursIn sepAnd A.data = false →
      E.data ≠ [] → occursIn sepAnd E.data = false →
      P.data ≠ [] → S.data ≠ [] → aid ≠ eid →
      bid2 ≠ bid → a2 ≠ aid → a2 ≠ eid →
      deleteBook Pp
        { people := [(aid, A), (eid, E), (a2, A2)], publishers := [(pid, P)],
          series := [(sid, S)],
          books := [{ book_id := bid, title := ttl, subtitle := none, year := yr,
                      edition := none, publisher_id := pid, isbn := isb,
                      series_id := some sid, status := st, purchased_date := none },
                    { book_id := bid2, title := ttl2, subtitle := none, year := yr2,
                      edition := none, publisher_id := pid, isbn := isb2,
                      series_id := none, status := st2, purchased_date := none }],
          book_author := [(bid, aid), (bid2, a2)], book_editor := [(bid, eid)] } bid =
        (.ok (),
         { people := [(a2, A2)], publishers := [(pid, P)], series := [],
           books := [{ book_id := bid2, title := ttl2, subtitle := none, year := yr2,
                       edition := none, publisher_id := pid, isbn := isb2,
                       series_id := none, status := st2, purchased_date := none }],
           book_author := [(bid2, a2)], book_editor := [] })) :=
  ⟨fun Pp A E P S ttl isb st aid eid pid sid bid yr h1 h2 h3 h4 h5 h6 h7 =>
     c2_scenario_one Pp A E P S ttl isb st aid eid pid sid bid yr h1 h2 h3 h4 h5 h6 h7,
   fun Pp A E P S A2 ttl ttl2 isb isb2 st st2 aid eid pid sid bid a2 bid2 yr yr2
       h1 h2 h3 h4 h5 h6 h7 h8 h9 h10 =>
     c2_scenario_two Pp A E P S A2 ttl ttl2 isb isb2 st st2 aid eid pid sid bid a2 bid2
       yr yr2 h1 h2 h3 h4 h5 h6 h7 h8 h9 h10⟩

/-- A store whose single book's sole author is named "A and B" (a name
containing " and "). -/
def dbAndAuthor : DB :=
  { people := [(1, "A and B")], publishers := [(1, "P")], series := [],
    books := [{ book_id := 1, title := "T", subtitle := none, year := 2000,
                edition := none, publisher_id := 1, isbn := "i", series_id := none,
                status := "Owned", purchased_date := none }],
    book_author := [(1, 1)], book_editor := [] }

/-- C2 counterexample: for the book whose sole author is "A and B",
deleteBook succeeds and removes the book and publisher, but the formatted
author string re-parses to ["A", "B"], so the cleanup never targets the
real person and the row for "A and B" (now referenced by no book) remains,
against the claim's "zero rows remain for that person". -/
theorem c2_sole_author_row_remains :
    (deleteBook noParsers dbAndAuthor 1).1 = .ok () ∧
    (deleteBook noParsers dbAndAuthor 1).2.books = [] ∧
    (deleteBook noParsers dbAndAuthor 1).2.book_author = [] ∧
    (deleteBook noParsers dbAndAuthor 1).2.people = [(1, "A and B")] := by decide

/-- C2 witness: both cascade scenarios at concrete names and ids. -/
theorem c2_orphan_cascade_witness :
    deleteBook noParsers
      { people := [(1, "A"), (2, "E")], publishers := [(1, "P")], series := [(1, "S")],
        books := [{ book_id := 1, title := "T", subtitle := none, year := 2000,
                    edition := none, publisher_id := 1, isbn := "i",
                    series_id := some 1, status := "Owned", purchased_date := none }],
        book_author := [(1, 1)], book_editor := [(1, 2)] } 1 = (.ok (), dbEmpty) ∧
    deleteBook noParsers
      { people := [(1, "A"), (2, "E"), (3, "A2")], publishers := [(1, "P")],
        series := [(1, "S")],
        books := [{ book_id := 1, title := "T", subtitle := none, year := 2000,
                    edition := none, publisher_id := 1, isbn := "i",
                    series_id := some 1, status := "Owned", purchased_date := none },
                  { book_id := 2, title := "T2", subtitle := none, year := 2001,
                    edition := none, publisher_id := 1, isbn := "j",
                    series_id := none, status := "Owned", purchased_date := none }],
        book_author := [(1, 1), (2, 3)], book_editor := [(1, 2)] } 1 =
      (.ok (),
       { people := [(3, "A2")], publishers := [(1, "P")], series := [],
         books := [{ book_id := 2, title := "T2", subtitle := none, year := 2001,
                     edition := none, publisher_id := 1, isbn := "j",
                     series_id := none, status := "Owned", purchased_date := none }],
         book_author := [(2, 3)], book_editor := [] }) :=
  ⟨c2_deleteBook_orphan_cascade.1 noParsers "A" "E" "P" "S" "T" "i" "Owned" 1 2 1 1 1 2000
     (by decide) (by decide) (by decide) (by decide) (by decide) (by decide) (by decide),
   c2_deleteBook_orphan_cascade.2 noParsers "A" "E" "P" "S" "A2" "T" "T2" "i" "j"
     "Owned" "Owned" 1 2 1 1 1 3 2 2000 2001
     (by decide) (by decide) (by decide) (by decide) (by decide) (by decide) (by decide)
     (by decide) (by decide) (by decide)⟩

end Aristarchus
